import Mathlib

/-!
# Verification of the HAFS cycle-launch orchestrator (`scripts/exhafs_launch.py`)

This file shallowly embeds the `main` entry point of `scripts/exhafs_launch.py`
and proves the frozen claims about it.

The external collaborators (`hafs.launcher.multistorm_priority`,
`hafs.launcher.multistorm_parse_args`, `hafs.launcher.parse_launch_args`,
`hafs.launcher.launch`, `produtil.numerics.to_datetime`,
`produtil.ecflow.set_ecflow_event`, `produtil.dbnalert.DBNAlert`, the
filesystem and the environment) are not part of this repository's source;
they are modelled as an abstract, pure environment `Env`, and the behaviour
of the script is captured as the trace of collaborator calls it makes
(`Event`), together with the process exit discipline (`ExitKind`).

The configuration object returned by `hafs.launcher.launch` is embedded as a
structure `Conf` holding exactly the members that `exhafs_launch.py` reads:
the `getbool`/`getstr` flag values consulted by the notification block, the
two `strinterp` holdvars path templates, the `make_holdvars()` text, the
optional `config.startfile` path with the rendered `startdata` contents, the
result of `sanity_check()`, and the NCO message/alert strings.
-/

namespace ExhafsLaunch

/-- Per-storm extra launcher options (the `moreopt`/`moreopts[i]` values
returned by the argument parsers and passed through to
`hafs.launcher.launch`); their content is never inspected by
`exhafs_launch.py`, so they are carried as an uninterpreted list. -/
abbrev MoreOpt := List String

/-- The resolved configuration object returned by `hafs.launcher.launch`
(an `HAFSConfig`), embedded shallowly: only the members that
`exhafs_launch.py` itself reads appear.

* `run_gsi`, `run_ocean`, `ocean_model`, `run_wave`, `wave_model` are the
  `conf.getbool('config',...)` / `conf.getstr('config',...)` values used by
  the final notification block (lines 248-260).
* `stormlabelPath` is `conf.strinterp('dir','{com}/{stormlabel}.holdvars.txt')`.
* `outPrefixPath` is `conf.strinterp('dir','{com}/{out_prefix}.{RUN}.holdvars.txt')`.
* `holdvarsText` is `conf.make_holdvars()` (a pure function of the
  configuration, which is not modified between the two calls).
* `startfileOpt` is `conf.getstr('config','startfile')` when
  `conf.has_option('config','startfile')`, else `none`.
* `startContents` renders `conf.strinterp('config',startdata,holdvars=...)`
  as a function of the `holdvars` path substituted into the template.
* `sanityOk` is the outcome of `conf.sanity_check()` (`false` = raises).
* `messagePath`, `alertType` are the NCO-mode `strinterp` results. -/
structure Conf where
  run_gsi : Bool
  run_ocean : Bool
  ocean_model : String
  run_wave : Bool
  wave_model : String
  stormlabelPath : String
  outPrefixPath : String
  holdvarsText : String
  startfileOpt : Option String
  startContents : String → String
  sanityOk : Bool
  messagePath : String
  alertType : String

/-- One observable collaborator call made by `main`. -/
inductive Event where
  /-- `hafs.launcher.multistorm_priority(args, basins, logger, usage, renumber=renumber)` -/
  | priorityCall (args basins : List String) (renumber : Bool)
  /-- `hafs.launcher.multistorm_parse_args(multi_sids, args[1:], logger, usage)` -/
  | parseMultiCall (multiSids args1 : List String)
  /-- `hafs.launcher.parse_launch_args(args[1:], logger, usage)` -/
  | parseSingleCall (args1 : List String)
  /-- `hafs.launcher.launch(infiles, cycle, stid, moreopt, case_root, ..., fakestorm or fakestorm_conf, storm_num)` -/
  | launchCall (stid : String) (fakestorm : Bool) (stormNum : Nat)
      (fakestormConf : Option Conf) (moreopt : MoreOpt)
  /-- `conf.sanity_check()` -/
  | sanityCall (conf : Conf)
  /-- `produtil.dbnalert.DBNAlert(['MODEL', alert_type, '{job}', message])()` -/
  | dbnAlert (alertType messagePath : String)
  /-- `open(path,'wt').write(conf.make_holdvars())` for a holdvars file -/
  | writeHoldvars (path text : String)
  /-- `open(startfile,'wt').write(startcontents)` -/
  | writeStart (path text : String)
  /-- `produtil.ecflow.set_ecflow_event(name, logger)` -/
  | setEcflowEvent (name : String)

/-- The result of `hafs.launcher.multistorm_parse_args`. -/
structure MultiParse where
  case_root : String
  parm : String
  infiles : List String
  stids : List String
  fake_stid : String
  priority_stid : String
  moreopts : List MoreOpt

/-- The result of `hafs.launcher.parse_launch_args`. -/
structure SingleParse where
  case_root : String
  parm : String
  infiles : List String
  stid : String
  moreopt : MoreOpt

/-- The external collaborators of `exhafs_launch.py`, modelled as pure
functions.  `launch` takes (infiles, cycle, stid, moreopt, case_root,
fakestorm, fakestorm_conf, storm_num), mirroring the keyword arguments used
at lines 197-199 and 215-218 of the script. -/
structure Env where
  toDatetime : String → Option String
  multistorm_priority : List String → List String → Bool → List String
  multistorm_parse_args : List String → List String → MultiParse
  parse_launch_args : List String → SingleParse
  launch : List String → String → String → MoreOpt → String → Bool →
      Option Conf → Nat → Conf
  isNCO : Bool
  messageExists : String → Bool

/-- How the process terminates, as seen from the shell. -/
inductive ExitKind where
  /-- `main()` returns; the `__main__` wrapper posts a message and the
  process exits with code 0. -/
  | success
  /-- `usage(logger)` ran to completion: the usage text was printed and
  `sys.exit(2)` raised `SystemExit`, which is not caught by the
  `except Exception` handler, so the exit code is 2. -/
  | usageAbort
  /-- an exception escaped `main()` and was caught by the `__main__`
  handler (lines 268-271), which logs it and calls `sys.exit(2)`; the usage
  text is *not* printed on this path. -/
  | errAbort
deriving DecidableEq, Repr

/-- The process exit code for each termination kind (lines 114, 271). -/
def exitCode : ExitKind → Nat
  | .success => 0
  | .usageAbort => 2
  | .errAbort => 2

/-- Whether the usage text of `usage()` (lines 99-113) reached stdout. -/
def usagePrinted : ExitKind → Bool
  | .usageAbort => true
  | _ => false

/-- The argument actually passed to `usage`: the logger object (line 135)
or a plain string (line 132). -/
inductive UsageArg where
  | loggerArg
  | strArg (s : String)

/-- Behaviour of `usage(logger)` (lines 97-114) depending on what is passed
for `logger`.  With a real logger, `logger.critical(...)` succeeds, the
usage text is printed, and `sys.exit(2)` terminates the process
(`usageAbort`).  With a string — as at line 132 — `logger.critical`
raises `AttributeError` (`str` has no attribute `critical`) *before* the
usage text is printed; the exception propagates to the `__main__` handler,
which exits 2 without the usage text (`errAbort`). -/
def usage : UsageArg → ExitKind
  | .loggerArg => .usageAbort
  | .strArg _ => .errAbort

/-- Result of `getopt.gnu_getopt(sys.argv[1:], "m:M:n", [...])`: either the
`(opts, args)` pair, or a `GetoptError` (malformed flag syntax). -/
inductive GetoptRes where
  | ok (opts : List (String × String)) (args : List String)
  | err (msg : String)

/-- One step of the option loop at lines 146-154: accumulator is
`(mslist, mblist, renumber, ok)` where `ok = false` records that the
`assert False, "UNHANDLED OPTION"` branch fired. -/
def optStep (acc : List String × List String × Bool × Bool)
    (kv : String × String) : List String × List String × Bool × Bool :=
  let (ms, mb, ren, ok) := acc
  if kv.1 = "-m" ∨ kv.1 = "--multistorms" then
    (ms ++ kv.2.splitOn ",", mb, ren, ok)
  else if kv.1 = "-M" ∨ kv.1 = "--multibasins" then
    (ms, mb ++ kv.2.splitOn ",", ren, ok)
  else if kv.1 = "-n" ∨ kv.1 = "--renumber" then
    (ms, mb, false, ok)
  else
    (ms, mb, ren, false)

/-- The option loop at lines 142-154: `mslist = []`, `mblist = []`,
`renumber = True`, then fold `optStep` over `opts` in order. -/
def processOpts (opts : List (String × String)) :
    List String × List String × Bool × Bool :=
  opts.foldl optStep ([], [], true, true)

/-- The merge loop at lines 179-181: append each priority storm to
`multi_sids` unless it is already present (checked against the growing
list). -/
def appendNew (acc : List String) (bs : List String) : List String :=
  bs.foldl (fun a s => if s ∈ a then a else a ++ [s]) acc

/-- Line 174: `if multi_sids: renumber=True` — with both `-m` and `-M`
given, renumbering is forced on before the priority call. -/
def resolvedRenumber (ms : List String) (ren : Bool) : Bool :=
  if ms ≠ [] then true else ren

/-- The per-storm loop body (lines 222-246), for one already-obtained
configuration `conf`: `conf.sanity_check()` (which aborts the process when
it fails), the NCO `DBNAlert` block, the two holdvars writes, and the
optional startfile write.  Returns the events together with `true` when the
body completed (sanity check passed). -/
def stormEvents (env : Env) (conf : Conf) : List Event :=
  Event.sanityCall conf ::
    ((if env.isNCO ∧ env.messageExists conf.messagePath then
        [Event.dbnAlert conf.alertType conf.messagePath]
      else []) ++
     [Event.writeHoldvars conf.stormlabelPath conf.holdvarsText,
      Event.writeHoldvars conf.outPrefixPath conf.holdvarsText] ++
     (match conf.startfileOpt with
      | some sf => [Event.writeStart sf (conf.startContents conf.stormlabelPath)]
      | none => []))

/-- Process one storm's configuration: events plus completion flag. -/
def processStorm (env : Env) (conf : Conf) : List Event × Bool :=
  if conf.sanityOk then (stormEvents env conf, true)
  else ([Event.sanityCall conf], false)

/-- The `for i,stid in enumerate(stids)` loop of lines 212-246.
Arguments after the fixed context: remaining `stids`, current loop index
`i`, current `global_storm_num`, and the `conf` variable's current value
(`none` = unbound).  Returns (events, final `conf` value, `true` iff the
loop completed without raising).  Failure cases embedded: `moreopts[i]`
out of range (`IndexError`), `conf = fakestorm_conf = None` followed by
`conf.sanity_check()` (`AttributeError`), and a failed sanity check. -/
def runStorms (env : Env) (inf : List String) (cy cr : String)
    (fstid : Option String) (fsc : Option Conf) (mos : List MoreOpt) :
    List String → Nat → Nat → Option Conf → List Event × Option Conf × Bool
  | [], _, _, last => ([], last, true)
  | stid :: rest, i, num, last =>
    if fstid ≠ some stid then
      match mos.get? i with
      | none => ([], last, false)
      | some mo =>
        let conf := env.launch inf cy stid mo cr false fsc (num + 1)
        let p := processStorm env conf
        if p.2 then
          let r := runStorms env inf cy cr fstid fsc mos rest (i + 1) (num + 1)
            (some conf)
          (Event.launchCall stid false (num + 1) fsc mo :: (p.1 ++ r.1),
            r.2.1, r.2.2)
        else
          (Event.launchCall stid false (num + 1) fsc mo :: p.1, some conf, false)
    else
      fsc.elim ([], last, false) fun conf =>
        let p := processStorm env conf
        if p.2 then
          let r := runStorms env inf cy cr fstid fsc mos rest (i + 1) (num + 1)
            (some conf)
          (p.1 ++ r.1, r.2.1, r.2.2)
        else (p.1, some conf, false)

/-- The notification block at lines 248-260, reading the last loop
iteration's `conf`. -/
def notifyEvents (conf : Conf) : List Event :=
  (if conf.run_gsi then [Event.setEcflowEvent "Analysis"] else []) ++
  (if conf.run_ocean ∧ conf.ocean_model.toUpper = "HYCOM" then
    [Event.setEcflowEvent "Ocean"] else []) ++
  (if conf.run_wave ∧ conf.wave_model.toUpper = "WW3" then
    [Event.setEcflowEvent "Wave"] else [])

/-- A completed run. -/
structure RunResult where
  trace : List Event
  exit : ExitKind

/-- After the loop: read `conf` (a `NameError` if the loop never bound it)
and run the notification block. -/
def finish (tr : List Event) (lastConf : Option Conf) : RunResult :=
  match lastConf with
  | none => ⟨tr, .errAbort⟩
  | some conf => ⟨tr ++ notifyEvents conf, .success⟩

/-- The multistorm path (lines 188-199 plus the loop): parse args for the
multi-storm ids, launch the fake storm with `fakestorm=True` and
`storm_num=1` (`global_storm_num` is set to 1 at line 194 and
`moreopts[-1]` supplies its options), then run the loop over `stids` with
`fake_stid` bound and `fakestorm_conf` available. -/
def mainMulti (env : Env) (args : List String) (cy : String)
    (sids : List String) : RunResult :=
  let pm := env.multistorm_parse_args sids args.tail
  match pm.moreopts.getLast? with
  | none => ⟨[Event.parseMultiCall sids args.tail], .errAbort⟩
  | some lastMo =>
    let fakeConf := env.launch pm.infiles cy pm.fake_stid lastMo pm.case_root
      true none 1
    let r := runStorms env pm.infiles cy pm.case_root (some pm.fake_stid)
      (some fakeConf) pm.moreopts pm.stids 0 1 none
    let tr := Event.parseMultiCall sids args.tail ::
      Event.launchCall pm.fake_stid true 1 none lastMo :: r.1
    if r.2.2 then finish tr r.2.1 else ⟨tr, .errAbort⟩

/-- The single-storm path (lines 201-207 plus the loop): parse launch args,
then run the loop over the one-element `stids` list with `fake_stid = None`,
`fakestorm_conf = None`, and `global_storm_num` starting at 0. -/
def mainSingle (env : Env) (args : List String) (cy : String) : RunResult :=
  let ps := env.parse_launch_args args.tail
  let r := runStorms env ps.infiles cy ps.case_root none none [ps.moreopt]
    [ps.stid] 0 0 none
  let tr := Event.parseSingleCall args.tail :: r.1
  if r.2.2 then finish tr r.2.1 else ⟨tr, .errAbort⟩

/-- Lines 156-207 after the option loop: resolve `multi_sids` (calling
`multistorm_priority` when `mblist` is non-empty, with renumbering forced on
when `multi_sids` is already non-empty) and dispatch on
`go_since_multistorm_sids`. -/
def mainAfterOpts (env : Env) (args : List String) (cy : String)
    (ms mb : List String) (ren : Bool) : RunResult :=
  if mb ≠ [] then
    let renu := resolvedRenumber ms ren
    let bstorms := env.multistorm_priority args mb renu
    let sids := appendNew ms bstorms
    let r := mainMulti env args cy sids
    ⟨Event.priorityCall args mb renu :: r.trace, r.exit⟩
  else if ms ≠ [] then
    mainMulti env args cy ms
  else
    mainSingle env args cy

/-- `main()` (lines 116-260), as seen through the `__main__` wrapper
(lines 262-271), as a function of the collaborators `env` and the result
of `getopt.gnu_getopt`:

* a `GetoptError` leads to `usage('SCRIPT IS ABORTING DUE TO UNRECOGNIZED
  ARGUMENT')` — a string where a logger is expected (line 132);
* fewer than 4 positional arguments leads to `usage(logger)` (line 135);
* `to_datetime(args[0])` failing raises out of `main` (line 138);
* an unhandled option fires the `assert` (line 154);
* otherwise the resolved option lists are handed to `mainAfterOpts`. -/
def main (env : Env) (g : GetoptRes) : RunResult :=
  match g with
  | .err _ =>
    ⟨[], usage (.strArg "SCRIPT IS ABORTING DUE TO UNRECOGNIZED ARGUMENT")⟩
  | .ok opts args =>
    if args.length < 4 then ⟨[], usage .loggerArg⟩
    else
      match env.toDatetime (args.headD "") with
      | none => ⟨[], .errAbort⟩
      | some cy =>
        match processOpts opts with
        | (ms, mb, ren, true) => mainAfterOpts env args cy ms mb ren
        | (_, _, _, false) => ⟨[], .errAbort⟩

/-- All `launch` collaborator calls in a trace, as
(stid, fakestorm, storm_num, fakestorm_conf). -/
def launchCalls (tr : List Event) : List (String × Bool × Nat × Option Conf) :=
  tr.filterMap fun e =>
    match e with
    | .launchCall s f n c _ => some (s, f, n, c)
    | _ => none

/-- The `storm_num` arguments of all `launch` calls in a trace, in order. -/
def stormNums (tr : List Event) : List Nat :=
  tr.filterMap fun e =>
    match e with
    | .launchCall _ _ n _ _ => some n
    | _ => none

/-- All `multistorm_priority` calls in a trace. -/
def priorityCalls (tr : List Event) : List (List String × List String × Bool) :=
  tr.filterMap fun e =>
    match e with
    | .priorityCall a b r => some (a, b, r)
    | _ => none

/-- All `multistorm_parse_args` calls in a trace. -/
def parseMultiCalls (tr : List Event) : List (List String × List String) :=
  tr.filterMap fun e =>
    match e with
    | .parseMultiCall s a => some (s, a)
    | _ => none

/-- The configurations handed to `sanity_check`, in call order. -/
def sanityConfs (tr : List Event) : List Conf :=
  tr.filterMap fun e =>
    match e with
    | .sanityCall c => some c
    | _ => none

/-- The holdvars file writes in a trace, as (path, text). -/
def holdvarsWrites (tr : List Event) : List (String × String) :=
  tr.filterMap fun e =>
    match e with
    | .writeHoldvars p t => some (p, t)
    | _ => none

/-- How many times the named ecflow event was signaled in a trace. -/
def ecflowCount (name : String) (tr : List Event) : Nat :=
  (tr.filter fun e =>
    match e with
    | .setEcflowEvent n => n = name
    | _ => false).length

/-- An event that can be produced by the per-storm loop (lines 212-246):
everything except the pre-loop parses, the priority call and the
post-loop ecflow signals. -/
def isLoopEvent : Event → Bool
  | .launchCall _ _ _ _ _ => true
  | .sanityCall _ => true
  | .dbnAlert _ _ => true
  | .writeHoldvars _ _ => true
  | .writeStart _ _ => true
  | _ => false

/-- The entity list `multi_sids` as resolved by lines 166-181: when
`mblist` is non-empty, the explicitly given `mslist` entries followed by
the priority winners not already present; otherwise just `mslist`. -/
def resolvedSids (env : Env) (args ms mb : List String) (ren : Bool) :
    List String :=
  if mb ≠ [] then
    appendNew ms (env.multistorm_priority args mb (resolvedRenumber ms ren))
  else ms

/-- The expected `launch` calls made by the loop over `stids` starting from
`global_storm_num = num`, with placeholder identifier `f` and the shared
fake configuration reference `fsc`: every non-placeholder entity is
launched with the pre-incremented counter, placeholder positions make no
launch call. -/
def realCalls (fsc : Option Conf) (f : String) :
    List String → Nat → List (String × Bool × Nat × Option Conf)
  | [], _ => []
  | s :: rest, num =>
    if s = f then realCalls fsc f rest (num + 1)
    else (s, false, num + 1, fsc) :: realCalls fsc f rest (num + 1)

/-- The configurations the loop hands to `sanity_check`, entity by entity:
a fresh `launch` result for real entities, the already-produced fake
configuration (unmodified) for the placeholder. -/
def expectedConfs (env : Env) (inf : List String) (cy cr : String)
    (fc : Conf) (f : String) (mos : List MoreOpt) :
    List String → Nat → Nat → List Conf
  | [], _, _ => []
  | s :: rest, i, num =>
    (if s = f then fc
     else env.launch inf cy s (mos.getD i []) cr false (some fc) (num + 1)) ::
      expectedConfs env inf cy cr fc f mos rest (i + 1) (num + 1)

/-- The configuration produced for the fake storm at lines 197-199. -/
def fakeConfOf (env : Env) (args : List String) (cy : String)
    (sids : List String) (lastMo : MoreOpt) : Conf :=
  env.launch (env.multistorm_parse_args sids args.tail).infiles cy
    (env.multistorm_parse_args sids args.tail).fake_stid lastMo
    (env.multistorm_parse_args sids args.tail).case_root true none 1

/-- `kv` is a multistorm (`-m`) option as returned by `gnu_getopt`. -/
def isMKey (k : String) : Prop := k = "-m" ∨ k = "--multistorms"

/-- `kv` is a multibasin (`-M`) option as returned by `gnu_getopt`. -/
def isMBKey (k : String) : Prop := k = "-M" ∨ k = "--multibasins"

/-- `kv` is a renumber (`-n`) option as returned by `gnu_getopt`. -/
def isNKey (k : String) : Prop := k = "-n" ∨ k = "--renumber"

/-- One of the six option keys `gnu_getopt` can return for
`"m:M:n"` / `["multistorms=", "multibasins=", "renumber="]`. -/
def recognizedKey (k : String) : Prop := isMKey k ∨ isMBKey k ∨ isNKey k

instance (k : String) : Decidable (isMKey k) := by unfold isMKey; infer_instance

instance (k : String) : Decidable (isMBKey k) := by unfold isMBKey; infer_instance

instance (k : String) : Decidable (isNKey k) := by unfold isNKey; infer_instance

instance (k : String) : Decidable (recognizedKey k) := by
  unfold recognizedKey; infer_instance

/-- The same command line with every renumber flag occurrence removed. -/
def dropRenumberFlags (opts : List (String × String)) :
    List (String × String) :=
  opts.filter fun kv => ¬ isNKey kv.1

/-- A concrete resolved configuration, used to instantiate theorems with
hypotheses at a concrete input. -/
def confW : Conf :=
  { run_gsi := false
    run_ocean := false
    ocean_model := "hycom"
    run_wave := false
    wave_model := "ww3"
    stormlabelPath := "/com/storm1.holdvars.txt"
    outPrefixPath := "/com/out.hafs.holdvars.txt"
    holdvarsText := "HOLDVARS"
    startfileOpt := none
    startContents := fun h => "start:" ++ h
    sanityOk := true
    messagePath := "/mess/message1"
    alertType := "HAFS_MESSAGE" }

/-- A concrete collaborator environment, used to instantiate theorems with
hypotheses at a concrete input: the priority resolver returns
`["09L", "18E"]`, the multistorm argument parser keeps the entity set it
is given and uses placeholder `"00L"`, and every launched configuration
passes its sanity check. -/
def envW : Env :=
  { toDatetime := fun s => some s
    multistorm_priority := fun _ _ _ => ["09L", "18E"]
    multistorm_parse_args := fun sids _ =>
      { case_root := "HISTORY"
        parm := "/parm"
        infiles := []
        stids := sids
        fake_stid := "00L"
        priority_stid := "09L"
        moreopts := List.replicate (sids.length + 1) [] }
    parse_launch_args := fun a =>
      { case_root := a.getD 1 ""
        parm := a.getD 2 ""
        infiles := []
        stid := a.getD 0 ""
        moreopt := [] }
    launch := fun _ _ stid _ _ _ _ n =>
      { confW with holdvarsText := "HV:" ++ stid ++ ":" ++ toString n }
    isNCO := false
    messageExists := fun _ => false }

/-- The concrete command line `exhafs_launch.py 2014062400 12L HISTORY /parm`. -/
def argsW : List String := ["2014062400", "12L", "HISTORY", "/parm"]

/-- The entity set resolved by the concrete invocation
`-m 09L 2014062400 12L HISTORY /parm` under `envW`. -/
def sidsW : List String :=
  resolvedSids envW argsW ("09L".splitOn ",") [] true

/-! ## Helper lemmas -/

theorem splitOnAux_ne_nil (s sep : String) (b i j : String.Pos)
    (r : List String) : String.splitOnAux s sep b i j r ≠ [] := by
  induction b, i, j, r using String.splitOnAux.induct s sep with
  | _ =>
    rw [String.splitOnAux]
    simp_all [List.reverse_eq_nil_iff]

theorem splitOn_ne_nil (s sep : String) : s.splitOn sep ≠ [] := by
  rw [String.splitOn]
  split
  · simp
  · exact splitOnAux_ne_nil s sep 0 0 0 []

theorem launchCalls_append (a b : List Event) :
    launchCalls (a ++ b) = launchCalls a ++ launchCalls b := by
  simp [launchCalls]

theorem sanityConfs_append (a b : List Event) :
    sanityConfs (a ++ b) = sanityConfs a ++ sanityConfs b := by
  simp [sanityConfs]

theorem priorityCalls_append (a b : List Event) :
    priorityCalls (a ++ b) = priorityCalls a ++ priorityCalls b := by
  simp [priorityCalls]

theorem parseMultiCalls_append (a b : List Event) :
    parseMultiCalls (a ++ b) = parseMultiCalls a ++ parseMultiCalls b := by
  simp [parseMultiCalls]

theorem ecflowCount_append (name : String) (a b : List Event) :
    ecflowCount name (a ++ b) = ecflowCount name a + ecflowCount name b := by
  simp [ecflowCount]

theorem launchCalls_stormEvents (env : Env) (c : Conf) :
    launchCalls (stormEvents env c) = [] := by
  cases hs : c.startfileOpt <;>
    by_cases hn : env.isNCO ∧ env.messageExists c.messagePath <;>
      simp [stormEvents, launchCalls, hs, hn]

theorem sanityConfs_stormEvents (env : Env) (c : Conf) :
    sanityConfs (stormEvents env c) = [c] := by
  cases hs : c.startfileOpt <;>
    by_cases hn : env.isNCO ∧ env.messageExists c.messagePath <;>
      simp [stormEvents, sanityConfs, hs, hn]

theorem priorityCalls_stormEvents (env : Env) (c : Conf) :
    priorityCalls (stormEvents env c) = [] := by
  cases hs : c.startfileOpt <;>
    by_cases hn : env.isNCO ∧ env.messageExists c.messagePath <;>
      simp [stormEvents, priorityCalls, hs, hn]

theorem parseMultiCalls_stormEvents (env : Env) (c : Conf) :
    parseMultiCalls (stormEvents env c) = [] := by
  cases hs : c.startfileOpt <;>
    by_cases hn : env.isNCO ∧ env.messageExists c.messagePath <;>
      simp [stormEvents, parseMultiCalls, hs, hn]

theorem ecflowCount_stormEvents (name : String) (env : Env) (c : Conf) :
    ecflowCount name (stormEvents env c) = 0 := by
  cases hs : c.startfileOpt <;>
    by_cases hn : env.isNCO ∧ env.messageExists c.messagePath <;>
      simp [stormEvents, ecflowCount, hs, hn]

theorem holdvarsWrites_stormEvents (env : Env) (c : Conf) :
    holdvarsWrites (stormEvents env c) =
      [(c.stormlabelPath, c.holdvarsText), (c.outPrefixPath, c.holdvarsText)] := by
  cases hs : c.startfileOpt <;>
    by_cases hn : env.isNCO ∧ env.messageExists c.messagePath <;>
      simp [stormEvents, holdvarsWrites, hs, hn]

theorem processStorm_snd (env : Env) (c : Conf) :
    (processStorm env c).2 = c.sanityOk := by
  by_cases h : c.sanityOk <;> simp [processStorm, h]

/-- The loop over `stids`, in the multistorm configuration (placeholder
`f` bound, fake configuration `fc` produced and sane, every launched
configuration sane, enough `moreopts` entries): it completes, its `launch`
calls are exactly the non-placeholder entities with pre-incremented
sequence numbers, and the configurations it sanity-checks are the fresh
launches for real entities and the unmodified `fc` at placeholder
positions. -/
theorem runStorms_spec (env : Env) (inf : List String) (cy cr : String)
    (f : String) (fc : Conf) (mos : List MoreOpt)
    (hfc : fc.sanityOk = true)
    (hsane : ∀ s mo n,
      (env.launch inf cy s mo cr false (some fc) n).sanityOk = true) :
    ∀ (stids : List String) (i num : Nat) (last : Option Conf),
      i + stids.length ≤ mos.length →
      (runStorms env inf cy cr (some f) (some fc) mos stids i num last).2.2
          = true ∧
      launchCalls
          (runStorms env inf cy cr (some f) (some fc) mos stids i num last).1
        = realCalls (some fc) f stids num ∧
      sanityConfs
          (runStorms env inf cy cr (some f) (some fc) mos stids i num last).1
        = expectedConfs env inf cy cr fc f mos stids i num := by
  intro stids
  induction stids with
  | nil =>
    intro i num last _
    simp [runStorms, realCalls, expectedConfs, launchCalls, sanityConfs]
  | cons s rest ih =>
    intro i num last hlen
    have hi : i < mos.length := by
      simp only [List.length_cons] at hlen
      omega
    have hmo : mos.get? i = some (mos.getD i []) := by
      rw [List.get?_eq_get hi]
      rw [List.getD_eq_getElem?_getD, List.getElem?_eq_getElem hi]
      simp [List.get_eq_getElem]
    have hrest : (i + 1) + rest.length ≤ mos.length := by
      simp only [List.length_cons] at hlen
      omega
    by_cases hf : s = f
    · subst hf
      have hcond : ¬ (some s ≠ some s) := by simp
      rw [runStorms]
      rw [if_neg hcond]
      simp only [Option.elim_some]
      have hp2 : (processStorm env fc).2 = true := by
        rw [processStorm_snd, hfc]
      have hp1 : (processStorm env fc).1 = stormEvents env fc := by
        simp [processStorm, hfc]
      simp only [hp2, if_true]
      obtain ⟨h1, h2, h3⟩ := ih (i + 1) (num + 1) (some fc) hrest
      refine ⟨h1, ?_, ?_⟩
      · rw [hp1, launchCalls_append, launchCalls_stormEvents, h2]
        simp [realCalls]
      · rw [hp1, sanityConfs_append, sanityConfs_stormEvents, h3]
        simp [expectedConfs]
    · have hcond : (some f ≠ some s) := by
        simp only [Ne, Option.some.injEq]
        exact fun h => hf h.symm
      rw [runStorms]
      rw [if_pos hcond, hmo]
      have hp2 :
          (processStorm env
            (env.launch inf cy s (mos.getD i []) cr false (some fc) (num + 1))).2
            = true := by
        rw [processStorm_snd, hsane]
      have hp1 :
          (processStorm env
            (env.launch inf cy s (mos.getD i []) cr false (some fc) (num + 1))).1
            = stormEvents env
                (env.launch inf cy s (mos.getD i []) cr false (some fc) (num + 1)) := by
        simp [processStorm, hsane]
      simp only [hp2, if_true]
      obtain ⟨h1, h2, h3⟩ := ih (i + 1) (num + 1) _ hrest
      refine ⟨h1, ?_, ?_⟩
      · simp only [launchCalls, List.filterMap_cons]
        rw [← launchCalls]
        rw [launchCalls_append, hp1, launchCalls_stormEvents, h2]
        simp [realCalls, hf]
      · simp only [sanityConfs, List.filterMap_cons]
        rw [← sanityConfs]
        rw [sanityConfs_append, hp1, sanityConfs_stormEvents, h3]
        simp [expectedConfs, hf]

theorem stormEvents_all_loop (env : Env) (c : Conf) :
    (stormEvents env c).all isLoopEvent = true := by
  cases hs : c.startfileOpt <;>
    by_cases hn : env.isNCO ∧ env.messageExists c.messagePath <;>
      simp [stormEvents, hs, hn, isLoopEvent]

theorem processStorm_all_loop (env : Env) (c : Conf) :
    ((processStorm env c).1).all isLoopEvent = true := by
  by_cases h : c.sanityOk <;>
    simp [processStorm, h, isLoopEvent, stormEvents_all_loop]

theorem sanityConfs_cons_launch (s : String) (f : Bool) (n : Nat)
    (fc : Option Conf) (mo : MoreOpt) (l : List Event) :
    sanityConfs (Event.launchCall s f n fc mo :: l) = sanityConfs l := by
  simp [sanityConfs]

theorem sanityConfs_processStorm (env : Env) (c : Conf) :
    sanityConfs (processStorm env c).1 = [c] := by
  by_cases h : c.sanityOk
  · rw [processStorm, if_pos h]
    exact sanityConfs_stormEvents env c
  · rw [processStorm, if_neg h]
    rfl

/-- Every event produced by the per-storm loop is a loop-body event:
the loop itself never calls the priority resolver, the argument parsers,
or the ecflow signaller. -/
theorem runStorms_all_loop (env : Env) (inf : List String) (cy cr : String)
    (fstid : Option String) (fsc : Option Conf) (mos : List MoreOpt) :
    ∀ (stids : List String) (i num : Nat) (last : Option Conf),
      ((runStorms env inf cy cr fstid fsc mos stids i num last).1).all
        isLoopEvent = true := by
  intro stids
  induction stids with
  | nil => intro i num last; simp [runStorms]
  | cons s rest ih =>
    intro i num last
    rw [runStorms]
    by_cases hne : fstid ≠ some s
    · rw [if_pos hne]
      cases hmo : mos.get? i with
      | none => simp
      | some mo =>
        by_cases hp :
            (processStorm env (env.launch inf cy s mo cr false fsc (num + 1))).2
              = true
        · simp [hp, isLoopEvent, processStorm_all_loop, ih]
        · simp [hp, isLoopEvent, processStorm_all_loop]
    · rw [if_neg hne]
      cases fsc with
      | none => simp
      | some conf =>
        by_cases hp : (processStorm env conf).2 = true
        · simp [hp, processStorm_all_loop, ih]
        · simp [hp, processStorm_all_loop]

theorem priorityCalls_of_loop {tr : List Event}
    (h : tr.all isLoopEvent = true) : priorityCalls tr = [] := by
  rw [priorityCalls, List.filterMap_eq_nil_iff]
  intro e he
  have := (List.all_eq_true.mp h) e he
  cases e <;> simp_all [isLoopEvent]

theorem parseMultiCalls_of_loop {tr : List Event}
    (h : tr.all isLoopEvent = true) : parseMultiCalls tr = [] := by
  rw [parseMultiCalls, List.filterMap_eq_nil_iff]
  intro e he
  have := (List.all_eq_true.mp h) e he
  cases e <;> simp_all [isLoopEvent]

theorem ecflowCount_of_loop (name : String) {tr : List Event}
    (h : tr.all isLoopEvent = true) : ecflowCount name tr = 0 := by
  rw [ecflowCount, List.length_eq_zero, List.filter_eq_nil_iff]
  intro e he
  have := (List.all_eq_true.mp h) e he
  cases e <;> simp_all [isLoopEvent]

theorem getLast?_cons_of_ne_nil {α : Type} (a : α) {l : List α}
    (h : l ≠ []) : (a :: l).getLast? = l.getLast? := by
  cases l with
  | nil => exact absurd rfl h
  | cons b t => exact List.getLast?_cons_cons

theorem ne_nil_of_getLast?_eq_some {α : Type} {l : List α} {c : α}
    (h : l.getLast? = some c) : l ≠ [] := by
  intro hl
  subst hl
  simp at h

/-- One processed configuration followed by the rest of a completed run:
the final `conf` is the last sanity-checked configuration. -/
theorem last_step {conf : Conf} {restConfs : List Conf} {last' : Option Conf}
    (hrest : (restConfs = [] ∧ last' = some conf) ∨
      (∃ c, restConfs.getLast? = some c ∧ last' = some c)) :
    ∃ c, (conf :: restConfs).getLast? = some c ∧ last' = some c := by
  rcases hrest with ⟨h1, h2⟩ | ⟨c, h1, h2⟩
  · subst h1
    exact ⟨conf, rfl, h2⟩
  · exact ⟨c, by
      rw [getLast?_cons_of_ne_nil conf (ne_nil_of_getLast?_eq_some h1)]
      exact h1, h2⟩

/-- When the loop completes normally, the final value of its `conf`
variable is the configuration of the last sanity-checked entity (or the
initial value when no iteration ran). -/
theorem runStorms_last (env : Env) (inf : List String) (cy cr : String)
    (fstid : Option String) (fsc : Option Conf) (mos : List MoreOpt) :
    ∀ (stids : List String) (i num : Nat) (last : Option Conf)
      (tr : List Event) (last' : Option Conf),
      runStorms env inf cy cr fstid fsc mos stids i num last
          = (tr, last', true) →
      (sanityConfs tr = [] ∧ last' = last) ∨
      (∃ c, (sanityConfs tr).getLast? = some c ∧ last' = some c) := by
  intro stids
  induction stids with
  | nil =>
    intro i num last tr last' h
    rw [runStorms] at h
    rw [Prod.mk.injEq, Prod.mk.injEq] at h
    obtain ⟨h1, h2, -⟩ := h
    subst h1
    subst h2
    left
    exact ⟨rfl, rfl⟩
  | cons s rest ih =>
    intro i num last tr last' h
    rw [runStorms] at h
    by_cases hne : fstid ≠ some s
    · rw [if_pos hne] at h
      cases hmo : mos.get? i with
      | none => rw [hmo] at h; simp at h
      | some mo =>
        rw [hmo] at h
        by_cases hp :
            (processStorm env (env.launch inf cy s mo cr false fsc (num + 1))).2
              = true
        · simp only [hp, if_true] at h
          rw [Prod.mk.injEq, Prod.mk.injEq] at h
          obtain ⟨h1, h2, h3⟩ := h
          have hR : runStorms env inf cy cr fstid fsc mos rest (i + 1) (num + 1)
              (some (env.launch inf cy s mo cr false fsc (num + 1))) =
              ((runStorms env inf cy cr fstid fsc mos rest (i + 1) (num + 1)
                (some (env.launch inf cy s mo cr false fsc (num + 1)))).1,
               (runStorms env inf cy cr fstid fsc mos rest (i + 1) (num + 1)
                (some (env.launch inf cy s mo cr false fsc (num + 1)))).2.1,
               true) := by
            rw [← h3]
          have hrest := ih (i + 1) (num + 1) _ _ _ hR
          subst h1
          subst h2
          right
          rw [sanityConfs_cons_launch, sanityConfs_append,
            sanityConfs_processStorm, List.singleton_append]
          exact last_step hrest
        · simp only [hp, if_false] at h
          rw [Prod.mk.injEq, Prod.mk.injEq] at h
          exact absurd h.2.2 (by simp)
    · rw [if_neg hne] at h
      cases fsc with
      | none => simp [Option.elim] at h
      | some conf =>
        simp only [Option.elim_some] at h
        by_cases hp : (processStorm env conf).2 = true
        · simp only [hp, if_true] at h
          rw [Prod.mk.injEq, Prod.mk.injEq] at h
          obtain ⟨h1, h2, h3⟩ := h
          have hR : runStorms env inf cy cr fstid (some conf) mos rest (i + 1)
              (num + 1) (some conf) =
              ((runStorms env inf cy cr fstid (some conf) mos rest (i + 1)
                (num + 1) (some conf)).1,
               (runStorms env inf cy cr fstid (some conf) mos rest (i + 1)
                (num + 1) (some conf)).2.1,
               true) := by
            rw [← h3]
          have hrest := ih (i + 1) (num + 1) _ _ _ hR
          subst h1
          subst h2
          right
          rw [sanityConfs_append, sanityConfs_processStorm,
            List.singleton_append]
          exact last_step hrest
        · simp only [hp, if_false] at h
          rw [Prod.mk.injEq, Prod.mk.injEq] at h
          exact absurd h.2.2 (by simp)

theorem optStep_eta (ms mb : List String) (ren ok : Bool)
    (kv : String × String) :
    optStep (ms, mb, ren, ok) kv =
      (if kv.1 = "-m" ∨ kv.1 = "--multistorms" then
        (ms ++ kv.2.splitOn ",", mb, ren, ok)
      else if kv.1 = "-M" ∨ kv.1 = "--multibasins" then
        (ms, mb ++ kv.2.splitOn ",", ren, ok)
      else if kv.1 = "-n" ∨ kv.1 = "--renumber" then
        (ms, mb, false, ok)
      else
        (ms, mb, ren, false)) := rfl

theorem foldl_optStep_ms_ne (opts : List (String × String)) :
    ∀ (ms mb : List String) (ren ok : Bool), ms ≠ [] →
      (opts.foldl optStep (ms, mb, ren, ok)).1 ≠ [] := by
  induction opts with
  | nil => intro ms mb ren ok h; simpa using h
  | cons kv rest ih =>
    intro ms mb ren ok h
    rw [List.foldl_cons, optStep_eta]
    split_ifs
    · exact ih _ _ _ _ (by simp [h])
    · exact ih _ _ _ _ h
    · exact ih _ _ _ _ h
    · exact ih _ _ _ _ h

theorem foldl_optStep_mb_ne (opts : List (String × String)) :
    ∀ (ms mb : List String) (ren ok : Bool), mb ≠ [] →
      (opts.foldl optStep (ms, mb, ren, ok)).2.1 ≠ [] := by
  induction opts with
  | nil => intro ms mb ren ok h; simpa using h
  | cons kv rest ih =>
    intro ms mb ren ok h
    rw [List.foldl_cons, optStep_eta]
    split_ifs
    · exact ih _ _ _ _ h
    · exact ih _ _ _ _ (by simp [h])
    · exact ih _ _ _ _ h
    · exact ih _ _ _ _ h

/-- If a `-m`/`--multistorms` option occurs, the resolved `mslist` is
non-empty (`v.split(",")` always contributes at least one element, so the
Python truthiness test `if mslist:` fires). -/
theorem foldl_optStep_ms_of_mem (opts : List (String × String)) :
    ∀ (ms mb : List String) (ren ok : Bool),
      (∃ kv ∈ opts, isMKey kv.1) →
      (opts.foldl optStep (ms, mb, ren, ok)).1 ≠ [] := by
  induction opts with
  | nil => intro ms mb ren ok h; simp at h
  | cons kv rest ih =>
    intro ms mb ren ok h
    rw [List.foldl_cons, optStep_eta]
    rcases h with ⟨kv0, hmem, hkey⟩
    rcases List.mem_cons.mp hmem with rfl | hmem
    · have hkey2 : kv0.1 = "-m" ∨ kv0.1 = "--multistorms" := hkey
      rw [if_pos hkey2]
      exact foldl_optStep_ms_ne rest _ _ _ _
        (by simp [splitOn_ne_nil kv0.2 ","])
    · split_ifs
      · exact foldl_optStep_ms_ne rest _ _ _ _
          (by simp [splitOn_ne_nil kv.2 ","])
      · exact ih _ _ _ _ ⟨kv0, hmem, hkey⟩
      · exact ih _ _ _ _ ⟨kv0, hmem, hkey⟩
      · exact ih _ _ _ _ ⟨kv0, hmem, hkey⟩

/-- If a `-M`/`--multibasins` option occurs, the resolved `mblist` is
non-empty. -/
theorem foldl_optStep_mb_of_mem (opts : List (String × String)) :
    ∀ (ms mb : List String) (ren ok : Bool),
      (∃ kv ∈ opts, isMBKey kv.1) →
      (opts.foldl optStep (ms, mb, ren, ok)).2.1 ≠ [] := by
  induction opts with
  | nil => intro ms mb ren ok h; simp at h
  | cons kv rest ih =>
    intro ms mb ren ok h
    rw [List.foldl_cons, optStep_eta]
    rcases h with ⟨kv0, hmem, hkey⟩
    rcases List.mem_cons.mp hmem with rfl | hmem
    · have hkey2 : kv0.1 = "-M" ∨ kv0.1 = "--multibasins" := hkey
      have hm : ¬ (kv0.1 = "-m" ∨ kv0.1 = "--multistorms") := by
        rcases hkey2 with h | h <;> rw [h] <;> decide
      rw [if_neg hm, if_pos hkey2]
      exact foldl_optStep_mb_ne rest _ _ _ _
        (by simp [splitOn_ne_nil kv0.2 ","])
    · split_ifs
      · exact ih _ _ _ _ ⟨kv0, hmem, hkey⟩
      · exact foldl_optStep_mb_ne rest _ _ _ _
          (by simp [splitOn_ne_nil kv.2 ","])
      · exact ih _ _ _ _ ⟨kv0, hmem, hkey⟩
      · exact ih _ _ _ _ ⟨kv0, hmem, hkey⟩

/-- With only recognized option keys, the `assert False` branch never
fires. -/
theorem foldl_optStep_ok (opts : List (String × String)) :
    ∀ (ms mb : List String) (ren ok : Bool),
      (∀ kv ∈ opts, recognizedKey kv.1) →
      (opts.foldl optStep (ms, mb, ren, ok)).2.2.2 = ok := by
  induction opts with
  | nil => intro ms mb ren ok _; rfl
  | cons kv rest ih =>
    intro ms mb ren ok h
    have hkv := h kv (List.mem_cons_self kv rest)
    have hrest : ∀ kv0 ∈ rest, recognizedKey kv0.1 :=
      fun kv0 hm => h kv0 (List.mem_cons_of_mem kv hm)
    rw [List.foldl_cons, optStep_eta]
    split_ifs with h1 h2 h3
    · exact ih _ _ _ _ hrest
    · exact ih _ _ _ _ hrest
    · exact ih _ _ _ _ hrest
    · exact absurd hkv (by simp [recognizedKey, isMKey, isMBKey, isNKey,
        h1, h2, h3])

/-- Without any `-M`/`--multibasins` option, `mblist` stays empty. -/
theorem foldl_optStep_mb_nil (opts : List (String × String)) :
    ∀ (ms mb : List String) (ren ok : Bool),
      (∀ kv ∈ opts, ¬ isMBKey kv.1) →
      (opts.foldl optStep (ms, mb, ren, ok)).2.1 = mb := by
  induction opts with
  | nil => intro ms mb ren ok _; rfl
  | cons kv rest ih =>
    intro ms mb ren ok h
    have hkv := h kv (List.mem_cons_self kv rest)
    have hrest : ∀ kv0 ∈ rest, ¬ isMBKey kv0.1 :=
      fun kv0 hm => h kv0 (List.mem_cons_of_mem kv hm)
    rw [List.foldl_cons, optStep_eta]
    split_ifs with h1 h2 h3
    · exact ih _ _ _ _ hrest
    · exact absurd h2 hkv
    · exact ih _ _ _ _ hrest
    · exact ih _ _ _ _ hrest

/-- Without any `-m`/`--multistorms` option, `mslist` stays empty. -/
theorem foldl_optStep_ms_nil (opts : List (String × String)) :
    ∀ (ms mb : List String) (ren ok : Bool),
      (∀ kv ∈ opts, ¬ isMKey kv.1) →
      (opts.foldl optStep (ms, mb, ren, ok)).1 = ms := by
  induction opts with
  | nil => intro ms mb ren ok _; rfl
  | cons kv rest ih =>
    intro ms mb ren ok h
    have hkv := h kv (List.mem_cons_self kv rest)
    have hrest : ∀ kv0 ∈ rest, ¬ isMKey kv0.1 :=
      fun kv0 hm => h kv0 (List.mem_cons_of_mem kv hm)
    rw [List.foldl_cons, optStep_eta]
    split_ifs with h1 h2 h3
    · exact absurd h1 hkv
    · exact ih _ _ _ _ hrest
    · exact ih _ _ _ _ hrest
    · exact ih _ _ _ _ hrest

/-- Removing the renumber flags from the option list leaves the resolved
`mslist`, `mblist` and the assert status unchanged. -/
theorem foldl_optStep_dropN (opts : List (String × String)) :
    ∀ (ms mb : List String) (ren ren2 ok : Bool),
      ((dropRenumberFlags opts).foldl optStep (ms, mb, ren2, ok)).1
          = (opts.foldl optStep (ms, mb, ren, ok)).1 ∧
      ((dropRenumberFlags opts).foldl optStep (ms, mb, ren2, ok)).2.1
          = (opts.foldl optStep (ms, mb, ren, ok)).2.1 ∧
      ((dropRenumberFlags opts).foldl optStep (ms, mb, ren2, ok)).2.2.2
          = (opts.foldl optStep (ms, mb, ren, ok)).2.2.2 := by
  induction opts with
  | nil => intro ms mb ren ren2 ok; exact ⟨rfl, rfl, rfl⟩
  | cons kv rest ih =>
    intro ms mb ren ren2 ok
    by_cases hn : isNKey kv.1
    · have hn2 : kv.1 = "-n" ∨ kv.1 = "--renumber" := hn
      have hdrop : dropRenumberFlags (kv :: rest) = dropRenumberFlags rest := by
        simp [dropRenumberFlags, hn]
      have hm : ¬ (kv.1 = "-m" ∨ kv.1 = "--multistorms") := by
        rcases hn2 with h | h <;> rw [h] <;> decide
      have hb : ¬ (kv.1 = "-M" ∨ kv.1 = "--multibasins") := by
        rcases hn2 with h | h <;> rw [h] <;> decide
      rw [hdrop, List.foldl_cons, optStep_eta, if_neg hm, if_neg hb,
        if_pos hn2]
      exact ih ms mb false ren2 ok
    · have hdrop : dropRenumberFlags (kv :: rest)
          = kv :: dropRenumberFlags rest := by
        simp [dropRenumberFlags, hn]
      rw [hdrop, List.foldl_cons, List.foldl_cons, optStep_eta, optStep_eta]
      split_ifs with h1 h2 h3
      · exact ih _ _ _ _ _
      · exact ih _ _ _ _ _
      · exact absurd h3 hn
      · exact ih _ _ _ _ _

/-- The merge of lines 179-181 on a duplicate-free priority result: the
explicitly given entities first, then the winners in returned order with
those already present omitted. -/
theorem appendNew_nodup_eq (bs : List String) :
    ∀ ms : List String, bs.Nodup →
      appendNew ms bs = ms ++ bs.filter (fun s => s ∉ ms) := by
  induction bs with
  | nil => intro ms _; simp [appendNew]
  | cons b rest ih =>
    intro ms hnd
    rw [List.nodup_cons] at hnd
    obtain ⟨hb, hrest⟩ := hnd
    rw [appendNew, List.foldl_cons]
    by_cases hmem : b ∈ ms
    · rw [if_pos hmem, ← appendNew, ih ms hrest, List.filter_cons]
      simp [hmem]
    · rw [if_neg hmem, ← appendNew, ih (ms ++ [b]) hrest, List.filter_cons]
      have hcong : rest.filter (fun s => s ∉ ms ++ [b])
          = rest.filter (fun s => s ∉ ms) := by
        apply List.filter_congr
        intro s hs
        have hsb : s ≠ b := fun h => hb (h ▸ hs)
        simp [List.mem_append, hsb]
      rw [hcong]
      simp [hmem, List.append_assoc]

theorem stormNums_eq_launchCalls (tr : List Event) :
    stormNums tr = (launchCalls tr).map (fun t => t.2.2.1) := by
  induction tr with
  | nil => rfl
  | cons e rest ih =>
    cases e <;> simp [stormNums, launchCalls] <;>
      simpa [stormNums, launchCalls] using ih

/-- When the placeholder never occurs among the iterated entities, the
loop launches exactly the entities, in order, with consecutive
pre-incremented sequence numbers. -/
theorem realCalls_no_fake (fsc : Option Conf) (f : String) :
    ∀ (stids : List String) (num : Nat), f ∉ stids →
      (realCalls fsc f stids num).map (fun t => t.1) = stids ∧
      (realCalls fsc f stids num).map (fun t => t.2.2.1)
          = List.range' (num + 1) stids.length := by
  intro stids
  induction stids with
  | nil => intro num _; simp [realCalls, List.range']
  | cons s rest ih =>
    intro num h
    have hs : ¬ s = f := fun hh => h (hh ▸ List.mem_cons_self s rest)
    have hrest : f ∉ rest := fun hh => h (List.mem_cons_of_mem s hh)
    rw [realCalls, if_neg hs]
    obtain ⟨h1, h2⟩ := ih (num + 1) hrest
    constructor
    · simpa using h1
    · simp only [List.map_cons, h2, List.length_cons]
      rw [List.range'_succ]

theorem priorityCalls_notify (c : Conf) :
    priorityCalls (notifyEvents c) = [] := by
  rw [notifyEvents]
  split_ifs <;> simp [priorityCalls]

theorem parseMultiCalls_notify (c : Conf) :
    parseMultiCalls (notifyEvents c) = [] := by
  rw [notifyEvents]
  split_ifs <;> simp [parseMultiCalls]

theorem launchCalls_notify (c : Conf) :
    launchCalls (notifyEvents c) = [] := by
  rw [notifyEvents]
  split_ifs <;> simp [launchCalls]

theorem sanityConfs_notify (c : Conf) :
    sanityConfs (notifyEvents c) = [] := by
  rw [notifyEvents]
  split_ifs <;> simp [sanityConfs]

theorem ecflowCount_notify_Analysis (c : Conf) :
    ecflowCount "Analysis" (notifyEvents c) = if c.run_gsi then 1 else 0 := by
  rw [notifyEvents]
  split_ifs <;> simp [ecflowCount, List.filter_append]

theorem ecflowCount_notify_Ocean (c : Conf) :
    ecflowCount "Ocean" (notifyEvents c) =
      if c.run_ocean ∧ c.ocean_model.toUpper = "HYCOM" then 1 else 0 := by
  rw [notifyEvents]
  split_ifs <;> simp [ecflowCount, List.filter_append]

theorem ecflowCount_notify_Wave (c : Conf) :
    ecflowCount "Wave" (notifyEvents c) =
      if c.run_wave ∧ c.wave_model.toUpper = "WW3" then 1 else 0 := by
  rw [notifyEvents]
  split_ifs <;> simp [ecflowCount, List.filter_append]

/-- Entering `main` through a successful `gnu_getopt`, the length check
and `to_datetime`, with no unhandled option. -/
theorem main_ok_eq (env : Env) (opts : List (String × String))
    (args : List String) (cy : String) (ms mb : List String) (ren : Bool)
    (hop : processOpts opts = (ms, mb, ren, true))
    (hlen : ¬ args.length < 4)
    (hdt : env.toDatetime (args.headD "") = some cy) :
    main env (.ok opts args) = mainAfterOpts env args cy ms mb ren := by
  rw [main, if_neg hlen, hdt, hop]

theorem afterOpts_mb (env : Env) (args : List String) (cy : String)
    (ms mb : List String) (ren : Bool) (hmb : mb ≠ []) :
    mainAfterOpts env args cy ms mb ren =
      ⟨Event.priorityCall args mb (resolvedRenumber ms ren) ::
        (mainMulti env args cy (appendNew ms (env.multistorm_priority args mb
          (resolvedRenumber ms ren)))).trace,
       (mainMulti env args cy (appendNew ms (env.multistorm_priority args mb
         (resolvedRenumber ms ren)))).exit⟩ := by
  rw [mainAfterOpts, if_pos hmb]

theorem afterOpts_m (env : Env) (args : List String) (cy : String)
    (ms mb : List String) (ren : Bool) (hmb : mb = []) (hms : ms ≠ []) :
    mainAfterOpts env args cy ms mb ren = mainMulti env args cy ms := by
  rw [mainAfterOpts, if_neg (by simp [hmb]), if_pos hms]

theorem afterOpts_single (env : Env) (args : List String) (cy : String)
    (ms mb : List String) (ren : Bool) (hmb : mb = []) (hms : ms = []) :
    mainAfterOpts env args cy ms mb ren = mainSingle env args cy := by
  rw [mainAfterOpts, if_neg (by simp [hmb]), if_neg (by simp [hms])]

theorem launchCalls_nil : launchCalls [] = [] := rfl

theorem sanityConfs_nil : sanityConfs [] = [] := rfl

theorem priorityCalls_nil : priorityCalls [] = [] := rfl

theorem parseMultiCalls_nil : parseMultiCalls [] = [] := rfl

theorem holdvarsWrites_nil : holdvarsWrites [] = [] := rfl

theorem ecflowCount_nil (name : String) : ecflowCount name [] = 0 := rfl

theorem launchCalls_cons (e : Event) (l : List Event) :
    launchCalls (e :: l) =
      (match e with
        | .launchCall s f n c _ => [(s, f, n, c)]
        | _ => []) ++ launchCalls l := by
  cases e <;> simp [launchCalls]

theorem sanityConfs_cons (e : Event) (l : List Event) :
    sanityConfs (e :: l) =
      (match e with
        | .sanityCall c => [c]
        | _ => []) ++ sanityConfs l := by
  cases e <;> simp [sanityConfs]

theorem priorityCalls_cons (e : Event) (l : List Event) :
    priorityCalls (e :: l) =
      (match e with
        | .priorityCall a b r => [(a, b, r)]
        | _ => []) ++ priorityCalls l := by
  cases e <;> simp [priorityCalls]

theorem parseMultiCalls_cons (e : Event) (l : List Event) :
    parseMultiCalls (e :: l) =
      (match e with
        | .parseMultiCall s a => [(s, a)]
        | _ => []) ++ parseMultiCalls l := by
  cases e <;> simp [parseMultiCalls]

theorem holdvarsWrites_cons (e : Event) (l : List Event) :
    holdvarsWrites (e :: l) =
      (match e with
        | .writeHoldvars p t => [(p, t)]
        | _ => []) ++ holdvarsWrites l := by
  cases e <;> simp [holdvarsWrites]

theorem ecflowCount_cons (name : String) (e : Event) (l : List Event) :
    ecflowCount name (e :: l) =
      (match e with
        | .setEcflowEvent n => if n = name then 1 else 0
        | _ => 0) + ecflowCount name l := by
  cases e <;> simp [ecflowCount]
  case setEcflowEvent n =>
    by_cases h : n = name <;> simp [h, Nat.add_comm]

theorem mainSingle_launchCalls (env : Env) (args : List String)
    (cy : String) :
    launchCalls (mainSingle env args cy).trace =
      [((env.parse_launch_args args.tail).stid, false, 1, none)] ∧
    sanityConfs (mainSingle env args cy).trace =
      [env.launch (env.parse_launch_args args.tail).infiles cy
        (env.parse_launch_args args.tail).stid
        (env.parse_launch_args args.tail).moreopt
        (env.parse_launch_args args.tail).case_root false none 1] ∧
    parseMultiCalls (mainSingle env args cy).trace = [] := by
  rw [mainSingle, runStorms]
  rw [if_pos (show (none : Option String)
    ≠ some (env.parse_launch_args args.tail).stid from
      fun h => Option.noConfusion h)]
  simp only [List.get?_cons_zero, processStorm_snd]
  rw [runStorms]
  by_cases hc : (env.launch (env.parse_launch_args args.tail).infiles cy
      (env.parse_launch_args args.tail).stid
      (env.parse_launch_args args.tail).moreopt
      (env.parse_launch_args args.tail).case_root false none (0 + 1)).sanityOk
  · simp [hc, processStorm, finish, launchCalls_cons, launchCalls_append,
      launchCalls_stormEvents, launchCalls_notify, launchCalls_nil,
      sanityConfs_cons, sanityConfs_append, sanityConfs_stormEvents,
      sanityConfs_notify, sanityConfs_nil, parseMultiCalls_cons,
      parseMultiCalls_append, parseMultiCalls_stormEvents,
      parseMultiCalls_notify, parseMultiCalls_nil]
  · simp [hc, processStorm, finish, launchCalls_cons, launchCalls_nil,
      sanityConfs_cons, sanityConfs_nil, parseMultiCalls_cons,
      parseMultiCalls_nil]

theorem mainSingle_shape (env : Env) (args : List String) (cy : String) :
    (mainSingle env args cy).exit ≠ ExitKind.usageAbort ∧
    ∃ tail, (mainSingle env args cy).trace
        = Event.parseSingleCall args.tail :: tail := by
  rw [mainSingle]
  by_cases hr : (runStorms env (env.parse_launch_args args.tail).infiles cy
      (env.parse_launch_args args.tail).case_root none none
      [(env.parse_launch_args args.tail).moreopt]
      [(env.parse_launch_args args.tail).stid] 0 0 none).2.2 = true
  · rw [if_pos hr]
    cases hl : (runStorms env (env.parse_launch_args args.tail).infiles cy
        (env.parse_launch_args args.tail).case_root none none
        [(env.parse_launch_args args.tail).moreopt]
        [(env.parse_launch_args args.tail).stid] 0 0 none).2.1 with
    | none => rw [finish]; exact ⟨by simp, _, rfl⟩
    | some conf =>
      rw [finish]
      exact ⟨by simp, _, by rw [List.cons_append]⟩
  · rw [if_neg hr]
    exact ⟨by simp, _, rfl⟩

theorem mainMulti_reduce (env : Env) (args : List String) (cy : String)
    (sids : List String) (lastMo : MoreOpt)
    (hlast : (env.multistorm_parse_args sids args.tail).moreopts.getLast?
      = some lastMo) :
    mainMulti env args cy sids =
      (if (runStorms env (env.multistorm_parse_args sids args.tail).infiles
            cy (env.multistorm_parse_args sids args.tail).case_root
            (some (env.multistorm_parse_args sids args.tail).fake_stid)
            (some (env.launch
              (env.multistorm_parse_args sids args.tail).infiles cy
              (env.multistorm_parse_args sids args.tail).fake_stid lastMo
              (env.multistorm_parse_args sids args.tail).case_root true none
              1))
            (env.multistorm_parse_args sids args.tail).moreopts
            (env.multistorm_parse_args sids args.tail).stids 0 1 none).2.2
       then
        finish
          (Event.parseMultiCall sids args.tail ::
            Event.launchCall
              (env.multistorm_parse_args sids args.tail).fake_stid true 1
              none lastMo ::
            (runStorms env (env.multistorm_parse_args sids args.tail).infiles
              cy (env.multistorm_parse_args sids args.tail).case_root
              (some (env.multistorm_parse_args sids args.tail).fake_stid)
              (some (env.launch
                (env.multistorm_parse_args sids args.tail).infiles cy
                (env.multistorm_parse_args sids args.tail).fake_stid lastMo
                (env.multistorm_parse_args sids args.tail).case_root true
                none 1))
              (env.multistorm_parse_args sids args.tail).moreopts
              (env.multistorm_parse_args sids args.tail).stids 0 1 none).1)
          (runStorms env (env.multistorm_parse_args sids args.tail).infiles
            cy (env.multistorm_parse_args sids args.tail).case_root
            (some (env.multistorm_parse_args sids args.tail).fake_stid)
            (some (env.launch
              (env.multistorm_parse_args sids args.tail).infiles cy
              (env.multistorm_parse_args sids args.tail).fake_stid lastMo
              (env.multistorm_parse_args sids args.tail).case_root true none
              1))
            (env.multistorm_parse_args sids args.tail).moreopts
            (env.multistorm_parse_args sids args.tail).stids 0 1 none).2.1
       else
        ⟨Event.parseMultiCall sids args.tail ::
          Event.launchCall
            (env.multistorm_parse_args sids args.tail).fake_stid true 1
            none lastMo ::
          (runStorms env (env.multistorm_parse_args sids args.tail).infiles
            cy (env.multistorm_parse_args sids args.tail).case_root
            (some (env.multistorm_parse_args sids args.tail).fake_stid)
            (some (env.launch
              (env.multistorm_parse_args sids args.tail).infiles cy
              (env.multistorm_parse_args sids args.tail).fake_stid lastMo
              (env.multistorm_parse_args sids args.tail).case_root true none
              1))
            (env.multistorm_parse_args sids args.tail).moreopts
            (env.multistorm_parse_args sids args.tail).stids 0 1 none).1,
          .errAbort⟩) := by
  rw [mainMulti, hlast]

theorem priorityCalls_finish (tr : List Event) (lastConf : Option Conf) :
    priorityCalls (finish tr lastConf).trace = priorityCalls tr := by
  cases lastConf with
  | none => rfl
  | some conf =>
    rw [finish]
    simp only [priorityCalls_append, priorityCalls_notify, List.append_nil]

theorem parseMultiCalls_finish (tr : List Event) (lastConf : Option Conf) :
    parseMultiCalls (finish tr lastConf).trace = parseMultiCalls tr := by
  cases lastConf with
  | none => rfl
  | some conf =>
    rw [finish]
    simp only [parseMultiCalls_append, parseMultiCalls_notify,
      List.append_nil]

theorem priorityCalls_mainMulti (env : Env) (args : List String)
    (cy : String) (sids : List String) :
    priorityCalls (mainMulti env args cy sids).trace = [] := by
  rw [mainMulti]
  cases hlast : (env.multistorm_parse_args sids args.tail).moreopts.getLast?
    with
  | none => simp [priorityCalls_cons, priorityCalls_nil]
  | some lastMo =>
    simp only
    by_cases hr : (runStorms env
        (env.multistorm_parse_args sids args.tail).infiles cy
        (env.multistorm_parse_args sids args.tail).case_root
        (some (env.multistorm_parse_args sids args.tail).fake_stid)
        (some (env.launch (env.multistorm_parse_args sids args.tail).infiles
          cy (env.multistorm_parse_args sids args.tail).fake_stid lastMo
          (env.multistorm_parse_args sids args.tail).case_root true none 1))
        (env.multistorm_parse_args sids args.tail).moreopts
        (env.multistorm_parse_args sids args.tail).stids 0 1 none).2.2 = true
    · rw [if_pos hr, priorityCalls_finish]
      rw [priorityCalls_cons, priorityCalls_cons]
      simp only [List.nil_append]
      exact priorityCalls_of_loop (runStorms_all_loop env _ cy _ _ _ _ _ 0 1
        none)
    · rw [if_neg hr]
      rw [priorityCalls_cons, priorityCalls_cons]
      simp only [List.nil_append]
      exact priorityCalls_of_loop (runStorms_all_loop env _ cy _ _ _ _ _ 0 1
        none)

theorem parseMultiCalls_mainMulti (env : Env) (args : List String)
    (cy : String) (sids : List String) :
    parseMultiCalls (mainMulti env args cy sids).trace
      = [(sids, args.tail)] := by
  rw [mainMulti]
  cases hlast : (env.multistorm_parse_args sids args.tail).moreopts.getLast?
    with
  | none => simp [parseMultiCalls_cons, parseMultiCalls_nil]
  | some lastMo =>
    simp only
    by_cases hr : (runStorms env
        (env.multistorm_parse_args sids args.tail).infiles cy
        (env.multistorm_parse_args sids args.tail).case_root
        (some (env.multistorm_parse_args sids args.tail).fake_stid)
        (some (env.launch (env.multistorm_parse_args sids args.tail).infiles
          cy (env.multistorm_parse_args sids args.tail).fake_stid lastMo
          (env.multistorm_parse_args sids args.tail).case_root true none 1))
        (env.multistorm_parse_args sids args.tail).moreopts
        (env.multistorm_parse_args sids args.tail).stids 0 1 none).2.2 = true
    · rw [if_pos hr, parseMultiCalls_finish]
      rw [parseMultiCalls_cons, parseMultiCalls_cons]
      rw [parseMultiCalls_of_loop (runStorms_all_loop env _ cy _ _ _ _ _ 0 1
        none)]
      simp
    · rw [if_neg hr]
      rw [parseMultiCalls_cons, parseMultiCalls_cons]
      rw [parseMultiCalls_of_loop (runStorms_all_loop env _ cy _ _ _ _ _ 0 1
        none)]
      simp

theorem launchCalls_finish (tr : List Event) (lastConf : Option Conf) :
    launchCalls (finish tr lastConf).trace = launchCalls tr := by
  cases lastConf with
  | none => rfl
  | some conf =>
    rw [finish]
    simp only [launchCalls_append, launchCalls_notify, List.append_nil]

theorem sanityConfs_finish (tr : List Event) (lastConf : Option Conf) :
    sanityConfs (finish tr lastConf).trace = sanityConfs tr := by
  cases lastConf with
  | none => rfl
  | some conf =>
    rw [finish]
    simp only [sanityConfs_append, sanityConfs_notify, List.append_nil]

/-- The multistorm path under a well-behaved launcher (every launched
configuration passes its sanity check, and the parser returned one
`moreopts` entry per storm plus the fake storm's): the fake storm is
launched first with `fakestorm = true` and sequence number 1 and no
fake-storm reference, then the loop launches exactly the non-placeholder
parsed storms with sequence numbers starting at 2, handing each the fake
configuration by reference, and reuses the fake configuration unmodified at
placeholder positions. -/
theorem mainMulti_calls (env : Env) (args : List String) (cy : String)
    (sids : List String) (lastMo : MoreOpt)
    (hlast : (env.multistorm_parse_args sids args.tail).moreopts.getLast?
      = some lastMo)
    (hmos : (env.multistorm_parse_args sids args.tail).stids.length
      ≤ (env.multistorm_parse_args sids args.tail).moreopts.length)
    (hsane : ∀ (inf : List String) (cy2 s : String) (mo : MoreOpt)
      (cr : String) (fs : Bool) (fsc : Option Conf) (n : Nat),
      (env.launch inf cy2 s mo cr fs fsc n).sanityOk = true) :
    launchCalls (mainMulti env args cy sids).trace =
      ((env.multistorm_parse_args sids args.tail).fake_stid, true, 1, none)
        :: realCalls (some (fakeConfOf env args cy sids lastMo))
          (env.multistorm_parse_args sids args.tail).fake_stid
          (env.multistorm_parse_args sids args.tail).stids 1 ∧
    sanityConfs (mainMulti env args cy sids).trace =
      expectedConfs env (env.multistorm_parse_args sids args.tail).infiles cy
        (env.multistorm_parse_args sids args.tail).case_root
        (fakeConfOf env args cy sids lastMo)
        (env.multistorm_parse_args sids args.tail).fake_stid
        (env.multistorm_parse_args sids args.tail).moreopts
        (env.multistorm_parse_args sids args.tail).stids 0 1 := by
  rw [mainMulti_reduce env args cy sids lastMo hlast]
  have hspec := runStorms_spec env
    (env.multistorm_parse_args sids args.tail).infiles cy
    (env.multistorm_parse_args sids args.tail).case_root
    (env.multistorm_parse_args sids args.tail).fake_stid
    (fakeConfOf env args cy sids lastMo)
    (env.multistorm_parse_args sids args.tail).moreopts
    (hsane _ _ _ _ _ _ _ _)
    (fun s mo n => hsane _ _ _ _ _ _ _ _)
    (env.multistorm_parse_args sids args.tail).stids 0 1 none
    (by simpa using hmos)
  obtain ⟨hok, hlc, hsc⟩ := hspec
  rw [fakeConfOf] at hok hlc hsc
  rw [if_pos hok, launchCalls_finish, sanityConfs_finish]
  rw [launchCalls_cons, launchCalls_cons, sanityConfs_cons, sanityConfs_cons]
  simp only [List.nil_append]
  constructor
  · simp [hlc, fakeConfOf]
  · simp [hsc, fakeConfOf]

theorem afterOpts_ren_irrel (env : Env) (args : List String) (cy : String)
    (ms : List String) (ren ren2 : Bool) :
    mainAfterOpts env args cy ms [] ren
      = mainAfterOpts env args cy ms [] ren2 := by
  have h : ¬ (([] : List String) ≠ []) := by simp
  rw [mainAfterOpts, mainAfterOpts, if_neg h, if_neg h]

/-- Claim C5 — the code's actual behaviour at a `GetoptError`: the process
terminates at once with exit code 2, but the usage text is *not* printed,
because line 132 passes a string where `usage` expects a logger and
`'str' object has no attribute 'critical'` raises before the `print`.
The claim (and the spec) say the usage message is printed; the code's
intent is clearly `usage(logger)` as at line 135, so this is recorded as a
code bug, and this theorem documents the divergent behaviour. -/
theorem claim_C5_behavior (env : Env) (msg : String) :
    main env (.err msg) = ⟨[], ExitKind.errAbort⟩ ∧
    exitCode ExitKind.errAbort = 2 ∧
    usagePrinted ExitKind.errAbort = false :=
  ⟨rfl, rfl, rfl⟩

/-- Claim C6 — fewer than 4 positional arguments prints the usage message
and exits with code 2 (via `usage(logger)`, line 135); exactly 4
positional arguments with no options passes the count check and proceeds
into the single-storm path (its trace starts with the
`parse_launch_args` call and the usage path is never taken). -/
theorem claim_C6 (env : Env) (opts : List (String × String))
    (args : List String) :
    (args.length < 4 →
      main env (.ok opts args) = ⟨[], ExitKind.usageAbort⟩ ∧
      exitCode (main env (.ok opts args)).exit = 2 ∧
      usagePrinted (main env (.ok opts args)).exit = true) ∧
    (args.length = 4 → opts = [] →
      ∀ cy : String, env.toDatetime (args.headD "") = some cy →
      (main env (.ok opts args)).exit ≠ ExitKind.usageAbort ∧
      ∃ tail, (main env (.ok opts args)).trace
          = Event.parseSingleCall args.tail :: tail) := by
  constructor
  · intro h4
    have hm : main env (.ok opts args) = ⟨[], ExitKind.usageAbort⟩ := by
      rw [main, if_pos h4]
      rfl
    exact ⟨hm, by simp [hm, exitCode], by simp [hm, usagePrinted]⟩
  · intro h4 hopts cy hdt
    subst hopts
    have hop : processOpts ([] : List (String × String))
        = ([], [], true, true) := rfl
    rw [main_ok_eq env [] args cy [] [] true hop (by omega) hdt]
    rw [afterOpts_single env args cy [] [] true rfl rfl]
    exact mainSingle_shape env args cy

/-- Claim C8 — for each processed entity, the loop body writes two
holdvars files, the first at the storm-label path and the second at the
output-prefix path, and the text written to the second equals the text
written to the first (both are `conf.make_holdvars()` on the unchanged
configuration). -/
theorem claim_C8 (env : Env) (conf : Conf) (h : conf.sanityOk = true) :
    holdvarsWrites (processStorm env conf).1 =
      [(conf.stormlabelPath, conf.holdvarsText),
       (conf.outPrefixPath, conf.holdvarsText)] := by
  rw [processStorm, if_pos h]
  exact holdvarsWrites_stormEvents env conf

/-- Claim C9 — with no `-M`/`--multibasins` flag, adding or removing the
`-n`/`--renumber` flag does not change the program's observable behaviour
at all (trace and exit): the renumber value is only read by the priority
call, which happens only when the multi-group list is non-empty. -/
theorem claim_C9 (env : Env) (opts : List (String × String))
    (args : List String)
    (hM : ∀ kv ∈ opts, ¬ isMBKey kv.1) :
    main env (.ok opts args)
      = main env (.ok (dropRenumberFlags opts) args) := by
  rw [main, main]
  by_cases hlen : args.length < 4
  · rw [if_pos hlen, if_pos hlen]
  · rw [if_neg hlen, if_neg hlen]
    cases hdt : env.toDatetime (args.headD "") with
    | none => rfl
    | some cy =>
      obtain ⟨e1, e2, e3⟩ := foldl_optStep_dropN opts [] [] true true true
      have hmb : (processOpts opts).2.1 = [] :=
        foldl_optStep_mb_nil opts [] [] true true hM
      have hp : processOpts opts = ((processOpts opts).1, [],
          (processOpts opts).2.2.1, (processOpts opts).2.2.2) :=
        Prod.ext rfl (Prod.ext hmb (Prod.ext rfl rfl))
      have hq : processOpts (dropRenumberFlags opts)
          = ((processOpts opts).1, [],
             (processOpts (dropRenumberFlags opts)).2.2.1,
             (processOpts opts).2.2.2) :=
        Prod.ext e1 (Prod.ext (by rw [← hmb]; exact e2)
          (Prod.ext rfl e3))
      rw [hp, hq]
      cases hok : (processOpts opts).2.2.2 with
      | false => rfl
      | true =>
        exact afterOpts_ren_irrel env args cy (processOpts opts).1
          (processOpts opts).2.2.1
          (processOpts (dropRenumberFlags opts)).2.2.1

theorem processOpts_only_n (opts : List (String × String))
    (hflags : ∀ kv ∈ opts, isNKey kv.1) :
    processOpts opts
      = ([], [], (processOpts opts).2.2.1, true) := by
  have hnm : ∀ kv ∈ opts, ¬ isMKey kv.1 := by
    intro kv h hm
    rcases hflags kv h with h1 | h1 <;> rcases hm with h2 | h2 <;>
      rw [h1] at h2 <;> exact absurd h2 (by decide)
  have hnb : ∀ kv ∈ opts, ¬ isMBKey kv.1 := by
    intro kv h hm
    rcases hflags kv h with h1 | h1 <;> rcases hm with h2 | h2 <;>
      rw [h1] at h2 <;> exact absurd h2 (by decide)
  have hrec : ∀ kv ∈ opts, recognizedKey kv.1 :=
    fun kv h => Or.inr (Or.inr (hflags kv h))
  exact Prod.ext (foldl_optStep_ms_nil opts [] [] true true hnm)
    (Prod.ext (foldl_optStep_mb_nil opts [] [] true true hnb)
      (Prod.ext rfl (foldl_optStep_ok opts [] [] true true hrec)))

/-- Claim C1 (amended) — for every valid single-entity invocation (option
keys limited to the renumber flag, so no `-m` and no `-M`), the resolved
entity set is exactly the one identifier returned by `parse_launch_args`,
no placeholder is created (no `multistorm_parse_args` call and no
`fakestorm` launch), and that single real entity is launched with sequence
number 1 — the shared counter starts at 0 only in single-entity mode and
is pre-incremented before first use; it is reset to 1 before the
placeholder launch only in multi-entity mode. -/
theorem claim_C1_amended (env : Env) (opts : List (String × String))
    (args : List String) (cy : String)
    (hflags : ∀ kv ∈ opts, isNKey kv.1)
    (hlen : ¬ args.length < 4)
    (hdt : env.toDatetime (args.headD "") = some cy) :
    launchCalls (main env (.ok opts args)).trace =
      [((env.parse_launch_args args.tail).stid, false, 1, none)] ∧
    parseMultiCalls (main env (.ok opts args)).trace = [] := by
  rw [main_ok_eq env opts args cy [] [] (processOpts opts).2.2.1
    (processOpts_only_n opts hflags) hlen hdt]
  rw [afterOpts_single env args cy [] [] (processOpts opts).2.2.1 rfl rfl]
  obtain ⟨h1, h2, h3⟩ := mainSingle_launchCalls env args cy
  exact ⟨h1, h3⟩

/-- Claim C10 — for every single-entity invocation the placeholder
identifier and configuration stay `None`: the loop's reuse branch is never
taken (the sanity-checked configuration is the freshly launched one, not a
reused placeholder), and the layering engine is invoked exactly once, with
`fakestorm_conf = None` and `fakestorm = false`. -/
theorem claim_C10 (env : Env) (opts : List (String × String))
    (args : List String) (cy : String)
    (hflags : ∀ kv ∈ opts, isNKey kv.1)
    (hlen : ¬ args.length < 4)
    (hdt : env.toDatetime (args.headD "") = some cy) :
    launchCalls (main env (.ok opts args)).trace =
      [((env.parse_launch_args args.tail).stid, false, 1,
        (none : Option Conf))] ∧
    sanityConfs (main env (.ok opts args)).trace =
      [env.launch (env.parse_launch_args args.tail).infiles cy
        (env.parse_launch_args args.tail).stid
        (env.parse_launch_args args.tail).moreopt
        (env.parse_launch_args args.tail).case_root false none 1] := by
  rw [main_ok_eq env opts args cy [] [] (processOpts opts).2.2.1
    (processOpts_only_n opts hflags) hlen hdt]
  rw [afterOpts_single env args cy [] [] (processOpts opts).2.2.1 rfl rfl]
  obtain ⟨h1, h2, h3⟩ := mainSingle_launchCalls env args cy
  exact ⟨h1, h2⟩

/-- Claim C1 (counterexample to the claim as stated) — on the concrete
single-entity command line `2014062400 12L HISTORY /parm` with no options,
the single real entity is launched with sequence number 1, not 2: the
counter starts at 0 and the loop pre-increments it once. -/
theorem claim_C1_counterexample :
    stormNums (main envW (GetoptRes.ok [] argsW)).trace = [1] ∧
    ¬ stormNums (main envW (GetoptRes.ok [] argsW)).trace = [2] := by
  constructor
  · rfl
  · intro h
    rw [show stormNums (main envW (GetoptRes.ok [] argsW)).trace = [1]
      from rfl] at h
    simp at h

/-- Witness for claim C1's amended theorem at the concrete input
`2014062400 12L HISTORY /parm` with no options. -/
theorem claim_C1_witness :
    launchCalls (main envW (.ok [] argsW)).trace =
      [((envW.parse_launch_args argsW.tail).stid, false, 1, none)] ∧
    parseMultiCalls (main envW (.ok [] argsW)).trace = [] :=
  claim_C1_amended envW [] argsW "2014062400" (by simp) (by decide)
    rfl

/-- Witness for claim C10 at the concrete input
`2014062400 12L HISTORY /parm` with no options. -/
theorem claim_C10_witness :
    launchCalls (main envW (.ok [] argsW)).trace =
      [((envW.parse_launch_args argsW.tail).stid, false, 1,
        (none : Option Conf))] ∧
    sanityConfs (main envW (.ok [] argsW)).trace =
      [envW.launch (envW.parse_launch_args argsW.tail).infiles "2014062400"
        (envW.parse_launch_args argsW.tail).stid
        (envW.parse_launch_args argsW.tail).moreopt
        (envW.parse_launch_args argsW.tail).case_root false none 1] :=
  claim_C10 envW [] argsW "2014062400" (by simp) (by decide) rfl

/-- Claim C3 — for every multi-group invocation with group list `G`
(`mblist`), the priority resolver is called exactly once, with `G` and the
full positional argument list, and the entity set handed to
`multistorm_parse_args` is the explicit multi-entity list first (in
command-line order) followed by the resolver's winners in returned order,
omitting winners already present (stated for a duplicate-free resolver
result). -/
theorem claim_C3 (env : Env) (opts : List (String × String))
    (args : List String) (cy : String) (ms mb : List String) (ren : Bool)
    (hop : processOpts opts = (ms, mb, ren, true))
    (hmb : mb ≠ [])
    (hlen : ¬ args.length < 4)
    (hdt : env.toDatetime (args.headD "") = some cy)
    (hnd : (env.multistorm_priority args mb
      (resolvedRenumber ms ren)).Nodup) :
    priorityCalls (main env (.ok opts args)).trace
      = [(args, mb, resolvedRenumber ms ren)] ∧
    parseMultiCalls (main env (.ok opts args)).trace
      = [(ms ++ (env.multistorm_priority args mb
          (resolvedRenumber ms ren)).filter (fun s => s ∉ ms),
         args.tail)] := by
  rw [main_ok_eq env opts args cy ms mb ren hop hlen hdt]
  rw [afterOpts_mb env args cy ms mb ren hmb]
  constructor
  · simp only [priorityCalls_cons, priorityCalls_mainMulti,
      List.append_nil]
  · simp only [parseMultiCalls_cons, parseMultiCalls_mainMulti,
      List.nil_append]
    rw [appendNew_nodup_eq _ ms hnd]

/-- Witness for claim C3: the concrete invocation
`-M AL,EP 2014062400 12L HISTORY /parm` with resolver winners
`["09L", "18E"]`. -/
theorem claim_C3_witness :
    priorityCalls (main envW (.ok [("-M", "AL,EP")] argsW)).trace
      = [(argsW, "AL,EP".splitOn ",", resolvedRenumber [] true)] ∧
    parseMultiCalls (main envW (.ok [("-M", "AL,EP")] argsW)).trace
      = [(([] : List String) ++ (envW.multistorm_priority argsW
          ("AL,EP".splitOn ",")
          (resolvedRenumber [] true)).filter (fun s => s ∉ ([] : List String)),
         argsW.tail)] :=
  claim_C3 envW [("-M", "AL,EP")] argsW "2014062400" []
    ("AL,EP".splitOn ",") true rfl (splitOn_ne_nil "AL,EP" ",")
    (by decide) rfl (by decide)

/-- Claim C4 — whenever both a multi-entity list (`-m`) and a multi-group
list (`-M`) are given, the priority resolver is called with renumbering
forced on, regardless of any `-n`/`--renumber` flag. -/
theorem claim_C4 (env : Env) (opts : List (String × String))
    (args : List String) (cy : String)
    (hrec : ∀ kv ∈ opts, recognizedKey kv.1)
    (hm : ∃ kv ∈ opts, isMKey kv.1)
    (hM : ∃ kv ∈ opts, isMBKey kv.1)
    (hlen : ¬ args.length < 4)
    (hdt : env.toDatetime (args.headD "") = some cy) :
    priorityCalls (main env (.ok opts args)).trace
      = [(args, (processOpts opts).2.1, true)] := by
  have hms : (processOpts opts).1 ≠ [] :=
    foldl_optStep_ms_of_mem opts [] [] true true hm
  have hmb : (processOpts opts).2.1 ≠ [] :=
    foldl_optStep_mb_of_mem opts [] [] true true hM
  have hok : (processOpts opts).2.2.2 = true :=
    foldl_optStep_ok opts [] [] true true hrec
  have hop : processOpts opts = ((processOpts opts).1,
      (processOpts opts).2.1, (processOpts opts).2.2.1, true) :=
    Prod.ext rfl (Prod.ext rfl (Prod.ext rfl hok))
  rw [main_ok_eq env opts args cy _ _ _ hop hlen hdt]
  rw [afterOpts_mb env args cy _ _ _ hmb]
  have hren : resolvedRenumber (processOpts opts).1
      (processOpts opts).2.2.1 = true := by
    rw [resolvedRenumber, if_pos hms]
  simp only [priorityCalls_cons, priorityCalls_mainMulti, List.append_nil,
    hren]

/-- Witness for claim C4: the concrete invocation
`-n -m 07E -M AL,EP 2014062400 12L HISTORY /parm` — the `-n` flag is
present, yet the resolver is called with `renumber = true`. -/
theorem claim_C4_witness :
    priorityCalls (main envW
      (.ok [("-n", ""), ("-m", "07E"), ("-M", "AL,EP")] argsW)).trace
      = [(argsW, (processOpts
          [("-n", ""), ("-m", "07E"), ("-M", "AL,EP")]).2.1, true)] :=
  claim_C4 envW [("-n", ""), ("-m", "07E"), ("-M", "AL,EP")] argsW
    "2014062400"
    (by intro kv h; fin_cases h <;> simp [recognizedKey, isMKey, isMBKey,
      isNKey])
    ⟨("-m", "07E"), by simp, Or.inl rfl⟩
    ⟨("-M", "AL,EP"), by simp, Or.inl rfl⟩
    (by decide) rfl

theorem getLast?_replicate_succ {α : Type} (n : Nat) (a : α) :
    (List.replicate (n + 1) a).getLast? = some a := by
  induction n with
  | zero => rfl
  | succ k ih =>
    rw [List.replicate_succ]
    rw [getLast?_cons_of_ne_nil _ (by simp), ih]

/-- Claim C2 — for every multi-group or multi-entity invocation (with a
well-behaved launcher and parser), the synthetic placeholder entity is
launched first, with `fakestorm = true`, sequence number 1 and no
fake-configuration reference; the real entities are then processed in
entity-set order with sequence numbers 2, 3, ... (made explicit by the
last conjunct when the placeholder is not among the parsed storms), each
receiving the placeholder's configuration by reference; and at any
position whose identifier equals the placeholder identifier, the
already-produced fake configuration is reused unmodified, with no new
layering call inside the loop. -/
theorem claim_C2 (env : Env) (opts : List (String × String))
    (args : List String) (cy : String) (ms mb : List String) (ren : Bool)
    (lastMo : MoreOpt)
    (hop : processOpts opts = (ms, mb, ren, true))
    (hgo : ms ≠ [] ∨ mb ≠ [])
    (hlen : ¬ args.length < 4)
    (hdt : env.toDatetime (args.headD "") = some cy)
    (hlast : (env.multistorm_parse_args (resolvedSids env args ms mb ren)
      args.tail).moreopts.getLast? = some lastMo)
    (hmos : (env.multistorm_parse_args (resolvedSids env args ms mb ren)
        args.tail).stids.length
      ≤ (env.multistorm_parse_args (resolvedSids env args ms mb ren)
        args.tail).moreopts.length)
    (hsane : ∀ (inf : List String) (cy2 s : String) (mo : MoreOpt)
      (cr : String) (fs : Bool) (fsc : Option Conf) (n : Nat),
      (env.launch inf cy2 s mo cr fs fsc n).sanityOk = true) :
    launchCalls (main env (.ok opts args)).trace =
      ((env.multistorm_parse_args (resolvedSids env args ms mb ren)
          args.tail).fake_stid, true, 1, none)
        :: realCalls (some (fakeConfOf env args cy
            (resolvedSids env args ms mb ren) lastMo))
          (env.multistorm_parse_args (resolvedSids env args ms mb ren)
            args.tail).fake_stid
          (env.multistorm_parse_args (resolvedSids env args ms mb ren)
            args.tail).stids 1 ∧
    sanityConfs (main env (.ok opts args)).trace =
      expectedConfs env
        (env.multistorm_parse_args (resolvedSids env args ms mb ren)
          args.tail).infiles cy
        (env.multistorm_parse_args (resolvedSids env args ms mb ren)
          args.tail).case_root
        (fakeConfOf env args cy (resolvedSids env args ms mb ren) lastMo)
        (env.multistorm_parse_args (resolvedSids env args ms mb ren)
          args.tail).fake_stid
        (env.multistorm_parse_args (resolvedSids env args ms mb ren)
          args.tail).moreopts
        (env.multistorm_parse_args (resolvedSids env args ms mb ren)
          args.tail).stids 0 1 ∧
    ((env.multistorm_parse_args (resolvedSids env args ms mb ren)
        args.tail).fake_stid
      ∉ (env.multistorm_parse_args (resolvedSids env args ms mb ren)
        args.tail).stids →
      stormNums (main env (.ok opts args)).trace =
        1 :: List.range' 2 (env.multistorm_parse_args
          (resolvedSids env args ms mb ren) args.tail).stids.length) := by
  have hmm : launchCalls (main env (.ok opts args)).trace
        = launchCalls (mainMulti env args cy
          (resolvedSids env args ms mb ren)).trace ∧
      sanityConfs (main env (.ok opts args)).trace
        = sanityConfs (mainMulti env args cy
          (resolvedSids env args ms mb ren)).trace := by
    rw [main_ok_eq env opts args cy ms mb ren hop hlen hdt]
    by_cases hmb : mb ≠ []
    · rw [afterOpts_mb env args cy ms mb ren hmb]
      rw [show resolvedSids env args ms mb ren
        = appendNew ms (env.multistorm_priority args mb
          (resolvedRenumber ms ren)) from by rw [resolvedSids, if_pos hmb]]
      constructor
      · simp only [launchCalls_cons, List.nil_append]
      · simp only [sanityConfs_cons, List.nil_append]
    · have hmbe : mb = [] := not_ne_iff.mp hmb
      have hms : ms ≠ [] := hgo.resolve_right hmb
      rw [afterOpts_m env args cy ms mb ren hmbe hms]
      rw [show resolvedSids env args ms mb ren = ms from by
        rw [hmbe, resolvedSids, if_neg (by simp)]]
      exact ⟨rfl, rfl⟩
  obtain ⟨hcalls, hconfs⟩ := mainMulti_calls env args cy
    (resolvedSids env args ms mb ren) lastMo hlast hmos hsane
  refine ⟨hmm.1.trans hcalls, hmm.2.trans hconfs, ?_⟩
  intro hnot
  rw [stormNums_eq_launchCalls, hmm.1, hcalls]
  simp only [List.map_cons]
  rw [(realCalls_no_fake _ _ _ 1 hnot).2]

/-- Witness for claim C2: the concrete invocation
`-m 09L 2014062400 12L HISTORY /parm` under `envW`. -/
theorem claim_C2_witness :
    launchCalls (main envW (.ok [("-m", "09L")] argsW)).trace =
      ((envW.multistorm_parse_args sidsW argsW.tail).fake_stid, true, 1,
        none)
        :: realCalls (some (fakeConfOf envW argsW "2014062400" sidsW []))
          (envW.multistorm_parse_args sidsW argsW.tail).fake_stid
          (envW.multistorm_parse_args sidsW argsW.tail).stids 1 ∧
    sanityConfs (main envW (.ok [("-m", "09L")] argsW)).trace =
      expectedConfs envW
        (envW.multistorm_parse_args sidsW argsW.tail).infiles "2014062400"
        (envW.multistorm_parse_args sidsW argsW.tail).case_root
        (fakeConfOf envW argsW "2014062400" sidsW [])
        (envW.multistorm_parse_args sidsW argsW.tail).fake_stid
        (envW.multistorm_parse_args sidsW argsW.tail).moreopts
        (envW.multistorm_parse_args sidsW argsW.tail).stids 0 1 ∧
    ((envW.multistorm_parse_args sidsW argsW.tail).fake_stid
      ∉ (envW.multistorm_parse_args sidsW argsW.tail).stids →
      stormNums (main envW (.ok [("-m", "09L")] argsW)).trace =
        1 :: List.range' 2
          (envW.multistorm_parse_args sidsW argsW.tail).stids.length) :=
  claim_C2 envW [("-m", "09L")] argsW "2014062400" ("09L".splitOn ",") []
    true [] rfl (Or.inl (splitOn_ne_nil "09L" ",")) (by decide) rfl
    (getLast?_replicate_succ _ _)
    (by
      show sidsW.length
        ≤ (List.replicate (sidsW.length + 1) ([] : MoreOpt)).length
      rw [List.length_replicate]
      omega)
    (fun _ _ _ _ _ _ _ _ => rfl)

/-- `finish` on a present last configuration. -/
theorem finish_some (tr : List Event) (conf : Conf) :
    finish tr (some conf) = ⟨tr ++ notifyEvents conf, ExitKind.success⟩ :=
  rfl

/-- `finish` on an unbound `conf` (`NameError`). -/
theorem finish_none (tr : List Event) :
    finish tr none = ⟨tr, ExitKind.errAbort⟩ := rfl

/-- Core of the notification analysis: a completed loop followed by
`finish`, behind any prefix of events that carries no sanity checks and no
ecflow signals.  The final configuration is the last sanity-checked one,
and the ecflow signals of the whole trace are exactly those of the
notification block on that configuration. -/
theorem finish_loop_events (env : Env) (inf : List String) (cy cr : String)
    (fstid : Option String) (fsc : Option Conf) (mos : List MoreOpt)
    (stids : List String) (i num : Nat) (pre : List Event)
    (hpreS : sanityConfs pre = [])
    (hpreE : ∀ name, ecflowCount name pre = 0)
    (hr : (runStorms env inf cy cr fstid fsc mos stids i num none).2.2
      = true)
    (conf : Conf)
    (hl : (runStorms env inf cy cr fstid fsc mos stids i num none).2.1
      = some conf) :
    (sanityConfs ((finish
        (pre ++ (runStorms env inf cy cr fstid fsc mos stids i num none).1)
        (runStorms env inf cy cr fstid fsc mos stids i num
          none).2.1).trace)).getLast? = some conf ∧
    ∀ name, ecflowCount name ((finish
        (pre ++ (runStorms env inf cy cr fstid fsc mos stids i num none).1)
        (runStorms env inf cy cr fstid fsc mos stids i num none).2.1).trace)
      = ecflowCount name (notifyEvents conf) := by
  have hR : runStorms env inf cy cr fstid fsc mos stids i num none
      = ((runStorms env inf cy cr fstid fsc mos stids i num none).1,
         some conf, true) := by
    rw [← hl, ← hr]
  have hlast := runStorms_last env inf cy cr fstid fsc mos stids i num none
    _ _ hR
  have hget : (sanityConfs (runStorms env inf cy cr fstid fsc mos stids i
      num none).1).getLast? = some conf := by
    rcases hlast with ⟨h1, h2⟩ | ⟨c, h1, h2⟩
    · exact absurd h2 (by simp)
    · rw [h1]
      exact congrArg some (Option.some.inj h2).symm
  rw [hl, finish_some]
  constructor
  · show (sanityConfs ((pre ++ (runStorms env inf cy cr fstid fsc mos stids
      i num none).1) ++ notifyEvents conf)).getLast? = some conf
    rw [sanityConfs_append, sanityConfs_append, hpreS, sanityConfs_notify,
      List.nil_append, List.append_nil]
    exact hget
  · intro name
    show ecflowCount name ((pre ++ (runStorms env inf cy cr fstid fsc mos
      stids i num none).1) ++ notifyEvents conf)
      = ecflowCount name (notifyEvents conf)
    rw [ecflowCount_append, ecflowCount_append, hpreE name,
      ecflowCount_of_loop name (runStorms_all_loop env inf cy cr fstid fsc
        mos stids i num none)]
    simp

theorem mainMulti_success (env : Env) (args : List String) (cy : String)
    (sids : List String)
    (hs : (mainMulti env args cy sids).exit = ExitKind.success) :
    ∃ c : Conf,
      (sanityConfs (mainMulti env args cy sids).trace).getLast? = some c ∧
      ∀ name, ecflowCount name (mainMulti env args cy sids).trace
        = ecflowCount name (notifyEvents c) := by
  cases hlast : (env.multistorm_parse_args sids args.tail).moreopts.getLast?
    with
  | none =>
    exfalso
    rw [mainMulti, hlast] at hs
    simp at hs
  | some lastMo =>
    rw [mainMulti_reduce env args cy sids lastMo hlast] at hs ⊢
    by_cases hr : (runStorms env
        (env.multistorm_parse_args sids args.tail).infiles cy
        (env.multistorm_parse_args sids args.tail).case_root
        (some (env.multistorm_parse_args sids args.tail).fake_stid)
        (some (env.launch (env.multistorm_parse_args sids args.tail).infiles
          cy (env.multistorm_parse_args sids args.tail).fake_stid lastMo
          (env.multistorm_parse_args sids args.tail).case_root true none 1))
        (env.multistorm_parse_args sids args.tail).moreopts
        (env.multistorm_parse_args sids args.tail).stids 0 1 none).2.2 = true
    · rw [if_pos hr] at hs ⊢
      cases hl : (runStorms env
          (env.multistorm_parse_args sids args.tail).infiles cy
          (env.multistorm_parse_args sids args.tail).case_root
          (some (env.multistorm_parse_args sids args.tail).fake_stid)
          (some (env.launch
            (env.multistorm_parse_args sids args.tail).infiles cy
            (env.multistorm_parse_args sids args.tail).fake_stid lastMo
            (env.multistorm_parse_args sids args.tail).case_root true none
            1))
          (env.multistorm_parse_args sids args.tail).moreopts
          (env.multistorm_parse_args sids args.tail).stids 0 1 none).2.1 with
      | none =>
        exfalso
        rw [hl, finish_none] at hs
        simp at hs
      | some conf =>
        have hcore := finish_loop_events env
          (env.multistorm_parse_args sids args.tail).infiles cy
          (env.multistorm_parse_args sids args.tail).case_root
          (some (env.multistorm_parse_args sids args.tail).fake_stid)
          (some (env.launch (env.multistorm_parse_args sids
            args.tail).infiles cy
            (env.multistorm_parse_args sids args.tail).fake_stid lastMo
            (env.multistorm_parse_args sids args.tail).case_root true none
            1))
          (env.multistorm_parse_args sids args.tail).moreopts
          (env.multistorm_parse_args sids args.tail).stids 0 1
          [Event.parseMultiCall sids args.tail,
           Event.launchCall
             (env.multistorm_parse_args sids args.tail).fake_stid true 1
             none lastMo]
          rfl (fun _ => rfl) hr conf hl
        rw [hl] at hcore
        exact ⟨conf, hcore.1, hcore.2⟩
    · exfalso
      rw [if_neg hr] at hs
      simp at hs

theorem mainSingle_success (env : Env) (args : List String) (cy : String)
    (hs : (mainSingle env args cy).exit = ExitKind.success) :
    ∃ c : Conf,
      (sanityConfs (mainSingle env args cy).trace).getLast? = some c ∧
      ∀ name, ecflowCount name (mainSingle env args cy).trace
        = ecflowCount name (notifyEvents c) := by
  rw [mainSingle] at hs ⊢
  by_cases hr : (runStorms env (env.parse_launch_args args.tail).infiles cy
      (env.parse_launch_args args.tail).case_root none none
      [(env.parse_launch_args args.tail).moreopt]
      [(env.parse_launch_args args.tail).stid] 0 0 none).2.2 = true
  · rw [if_pos hr] at hs ⊢
    cases hl : (runStorms env (env.parse_launch_args args.tail).infiles cy
        (env.parse_launch_args args.tail).case_root none none
        [(env.parse_launch_args args.tail).moreopt]
        [(env.parse_launch_args args.tail).stid] 0 0 none).2.1 with
    | none =>
      exfalso
      rw [hl, finish_none] at hs
      simp at hs
    | some conf =>
      have hcore := finish_loop_events env
        (env.parse_launch_args args.tail).infiles cy
        (env.parse_launch_args args.tail).case_root none none
        [(env.parse_launch_args args.tail).moreopt]
        [(env.parse_launch_args args.tail).stid] 0 0
        [Event.parseSingleCall args.tail]
        rfl (fun _ => rfl) hr conf hl
      rw [hl] at hcore
      exact ⟨conf, hcore.1, hcore.2⟩
  · exfalso
    rw [if_neg hr] at hs
    simp at hs

theorem afterOpts_success (env : Env) (args : List String) (cy : String)
    (ms mb : List String) (ren : Bool)
    (hs : (mainAfterOpts env args cy ms mb ren).exit = ExitKind.success) :
    ∃ c : Conf,
      (sanityConfs (mainAfterOpts env args cy ms mb ren).trace).getLast?
        = some c ∧
      ∀ name, ecflowCount name (mainAfterOpts env args cy ms mb ren).trace
        = ecflowCount name (notifyEvents c) := by
  by_cases hmb : mb ≠ []
  · rw [afterOpts_mb env args cy ms mb ren hmb] at hs ⊢
    obtain ⟨c, h1, h2⟩ := mainMulti_success env args cy _ hs
    refine ⟨c, ?_, ?_⟩
    · simpa [sanityConfs_cons] using h1
    · intro name
      simpa [ecflowCount_cons] using h2 name
  · have hmbe : mb = [] := not_ne_iff.mp hmb
    by_cases hms : ms ≠ []
    · rw [afterOpts_m env args cy ms mb ren hmbe hms] at hs ⊢
      exact mainMulti_success env args cy ms hs
    · have hmse : ms = [] := not_ne_iff.mp hms
      rw [afterOpts_single env args cy ms mb ren hmbe hmse] at hs ⊢
      exact mainSingle_success env args cy hs

/-- Claim C7 — on every run that completes successfully, the named ecflow
events are governed by the last-processed entity's configuration: the
"Analysis" event is signaled exactly once iff `run_gsi` is set, the
"Ocean" event exactly once iff `run_ocean` is set and the upper-cased
`ocean_model` is `"HYCOM"`, and the "Wave" event exactly once iff
`run_wave` is set and the upper-cased `wave_model` is `"WW3"`; when a
condition is false the corresponding event is not signaled at all (the
model contains no clear call, mirroring the commented-out `c.alter`
lines). -/
theorem claim_C7 (env : Env) (g : GetoptRes)
    (hs : (main env g).exit = ExitKind.success) :
    ∃ c : Conf,
      (sanityConfs (main env g).trace).getLast? = some c ∧
      ecflowCount "Analysis" (main env g).trace
        = (if c.run_gsi then 1 else 0) ∧
      ecflowCount "Ocean" (main env g).trace
        = (if c.run_ocean ∧ c.ocean_model.toUpper = "HYCOM" then 1
           else 0) ∧
      ecflowCount "Wave" (main env g).trace
        = (if c.run_wave ∧ c.wave_model.toUpper = "WW3" then 1 else 0) := by
  cases g with
  | err msg =>
    exfalso
    rw [main] at hs
    simp [usage] at hs
  | ok opts args =>
    by_cases hlen : args.length < 4
    · exfalso
      rw [main, if_pos hlen] at hs
      simp [usage] at hs
    · cases hdt : env.toDatetime (args.headD "") with
      | none =>
        exfalso
        rw [main, if_neg hlen, hdt] at hs
        simp at hs
      | some cy =>
        rcases hp : processOpts opts with ⟨ms, mb, ren, ok⟩
        cases ok with
        | false =>
          exfalso
          rw [main, if_neg hlen, hdt, hp] at hs
          simp at hs
        | true =>
          rw [main_ok_eq env opts args cy ms mb ren hp hlen hdt] at hs ⊢
          obtain ⟨c, h1, h2⟩ := afterOpts_success env args cy ms mb ren hs
          refine ⟨c, h1, ?_, ?_, ?_⟩
          · rw [h2 "Analysis", ecflowCount_notify_Analysis]
          · rw [h2 "Ocean", ecflowCount_notify_Ocean]
          · rw [h2 "Wave", ecflowCount_notify_Wave]

/-- Witness for claim C7: the concrete single-entity invocation
`2014062400 12L HISTORY /parm` under `envW` completes successfully. -/
theorem claim_C7_witness :
    (main envW (GetoptRes.ok [] argsW)).exit = ExitKind.success ∧
    ∃ c : Conf,
      (sanityConfs (main envW (GetoptRes.ok [] argsW)).trace).getLast?
        = some c ∧
      ecflowCount "Analysis" (main envW (GetoptRes.ok [] argsW)).trace
        = (if c.run_gsi then 1 else 0) ∧
      ecflowCount "Ocean" (main envW (GetoptRes.ok [] argsW)).trace
        = (if c.run_ocean ∧ c.ocean_model.toUpper = "HYCOM" then 1
           else 0) ∧
      ecflowCount "Wave" (main envW (GetoptRes.ok [] argsW)).trace
        = (if c.run_wave ∧ c.wave_model.toUpper = "WW3" then 1 else 0) :=
  ⟨rfl, claim_C7 envW (GetoptRes.ok [] argsW) rfl⟩

/-- Witness for claim C6: with only 3 positional arguments the usage path
is taken; with the 4 positional arguments of `argsW` and no options the
count check passes and the single-storm path is entered. -/
theorem claim_C6_witness :
    main envW (.ok [] ["2014062400", "12L", "HISTORY"])
      = ⟨[], ExitKind.usageAbort⟩ ∧
    ((main envW (.ok [] argsW)).exit ≠ ExitKind.usageAbort ∧
     ∃ tail, (main envW (.ok [] argsW)).trace
        = Event.parseSingleCall argsW.tail :: tail) :=
  ⟨((claim_C6 envW [] ["2014062400", "12L", "HISTORY"]).1 (by decide)).1,
   (claim_C6 envW [] argsW).2 (by decide) rfl "2014062400" rfl⟩

/-- Witness for claim C8 at the concrete configuration `confW`. -/
theorem claim_C8_witness :
    holdvarsWrites (processStorm envW confW).1 =
      [(confW.stormlabelPath, confW.holdvarsText),
       (confW.outPrefixPath, confW.holdvarsText)] :=
  claim_C8 envW confW rfl

/-- Witness for claim C9: adding `-n` to the option-free single-storm
invocation leaves the whole observable run unchanged. -/
theorem claim_C9_witness :
    main envW (.ok [("-n", "")] argsW)
      = main envW (.ok (dropRenumberFlags [("-n", "")]) argsW) :=
  claim_C9 envW [("-n", "")] argsW (by
    intro kv h hb
    rcases List.mem_singleton.mp h with rfl
    rcases hb with h2 | h2 <;> exact absurd h2 (by decide))

end ExhafsLaunch
